import Mathlib

/-!
Verification development for the `apiary` repository: a shallow embedding of
the status classifier (`src/pod/detector.rs`), the discovery engine
(`src/pod/discovery.rs`), the hooks event ingest (`src/hooks.rs`), the tmux
list operations (`src/tmux/mod.rs`) and the refresh loops of the TUI
(`src/tui/app.rs`), together with theorems settling the frozen claims.

Regex patterns from the source are translated into hand-written matchers on
`List Char` that follow the semantics of the Rust `regex` crate for the
constructs each pattern uses (`.` does not match a newline, `\s` matches
whitespace including newlines, `\b` is a word boundary, `(?i)` is
case-insensitive comparison, `(?m)` makes `^`/`$` match at line boundaries).
`is_match` calls are translated existentially (a match exists somewhere),
which is equivalent to the engine's answer; capture extractions follow the
crate's leftmost-first semantics.  Character classes are restricted to the
ASCII range actually used by the program's inputs.
-/

namespace Apiary

/-- Whitespace as recognised by Rust `char::is_whitespace` and the regex
class `\s`, restricted to the ASCII range. -/
def isWs (c : Char) : Bool :=
  c = ' ' || c = '\t' || c = '\n' || c = '\r' || c = Char.ofNat 11 || c = Char.ofNat 12

/-- Word characters for the regex `\b` boundary: `[A-Za-z0-9_]`. -/
def isWordChar (c : Char) : Bool :=
  c.isAlpha || c.isDigit || c = '_'

/-- Word-character test on the optional character preceding a position
(`none` = start of the haystack, which is a non-word position). -/
def isWordOpt : Option Char → Bool
  | none => false
  | some c => isWordChar c

/-- `\b` after a literal ending in a word character: the next character is
absent or is a non-word character. -/
def boundaryAfter : List Char → Bool
  | [] => true
  | c :: _ => !isWordChar c

/-- Case-insensitive literal match: strip `pat` (given lowercase) from the
front of the haystack, returning the rest. Mirrors `(?i)` literal matching. -/
def stripCI : List Char → List Char → Option (List Char)
  | [], rest => some rest
  | _, [] => none
  | p :: ps, c :: cs => if p = c.toLower then stripCI ps cs else none

/-- Case-sensitive literal match. -/
def stripCS : List Char → List Char → Option (List Char)
  | [], rest => some rest
  | _, [] => none
  | p :: ps, c :: cs => if p = c then stripCS ps cs else none

/-- Rust `str::trim`: drop whitespace from both ends. -/
def rustTrim (s : List Char) : List Char :=
  ((s.dropWhile isWs).reverse.dropWhile isWs).reverse

/-- Split on `'\n'`, returning `n+1` chunks for `n` newlines. -/
def splitOnNl : List Char → List (List Char)
  | [] => [[]]
  | c :: cs =>
    if c = '\n' then [] :: splitOnNl cs
    else
      match splitOnNl cs with
      | [] => [[c]]
      | l :: ls => (c :: l) :: ls

/-- Strip one trailing `'\r'` (Rust `lines` treats `\r\n` as a terminator). -/
def stripCr (l : List Char) : List Char :=
  if l.getLast? = some '\r' then l.dropLast else l

/-- Rust `str::lines`: split on `'\n'`, without a trailing empty line when the
string ends in `'\n'`, stripping a final `'\r'` from each line. -/
def rustLines (s : List Char) : List (List Char) :=
  if s = [] then []
  else
    let parts := splitOnNl s
    let parts := if s.getLast? = some '\n' then parts.dropLast else parts
    parts.map stripCr

/-- `tail.join("\n")`: the lines separated by single newlines. -/
def intercalateNl : List (List Char) → List Char
  | [] => []
  | [l] => l
  | l :: ls => l ++ '\n' :: intercalateNl ls

/-- The `if lines.len() > k { &lines[lines.len()-k..] } else { &lines }`
idiom used by the detector for its 15- and 20-line tails. -/
def tailK (k : Nat) (lines : List (List Char)) : List (List Char) :=
  if lines.length > k then lines.drop (lines.length - k) else lines

/-- Try a position matcher at every position of the haystack, carrying the
previous character (for `\b` tests).  `scanP p none s` is the translation of
`re.is_match(s)` for a regex whose match-at-a-position test is `p`. -/
def scanP (p : Option Char → List Char → Bool) : Option Char → List Char → Bool
  | prev, [] => p prev []
  | prev, c :: cs => p prev (c :: cs) || scanP p (some c) cs

/-- `.*` followed by a continuation: try the continuation at this position or
skip one non-newline character (existential backtracking). -/
def dotStarThen (k : List Char → Bool) : List Char → Bool
  | [] => k []
  | c :: cs => k (c :: cs) || (decide (c ≠ '\n') && dotStarThen k cs)

/-- `.*` followed by a continuation that needs the previous character. -/
def dotStarThenP (k : Option Char → List Char → Bool) :
    Option Char → List Char → Bool
  | prev, [] => k prev []
  | prev, c :: cs => k prev (c :: cs) || (decide (c ≠ '\n') && dotStarThenP k (some c) cs)

/-- `\s*` followed by a continuation (existential). -/
def wsStarThen (k : List Char → Bool) : List Char → Bool
  | [] => k []
  | c :: cs => k (c :: cs) || (isWs c && wsStarThen k cs)

/-- `\s+` followed by a continuation (existential). -/
def wsPlusThen (k : List Char → Bool) : List Char → Bool
  | [] => false
  | c :: cs => isWs c && wsStarThen k cs

/-- Case-insensitive substring test (`(?i)` plain-literal pattern). -/
def containsCI (pat : List Char) (s : List Char) : Bool :=
  scanP (fun _ t => (stripCI pat t).isSome) none s

/-- Case-sensitive substring test. -/
def containsCS (pat : List Char) (s : List Char) : Bool :=
  scanP (fun _ t => (stripCS pat t).isSome) none s

/-! ### Permission patterns (`detector.rs` `PERMISSION_PATTERNS`) -/

/-- `(?i)allow.*\(y/n\)` at a position. -/
def permP1at (_ : Option Char) (s : List Char) : Bool :=
  match stripCI "allow".data s with
  | some r => dotStarThen (fun t => (stripCI "(y/n)".data t).isSome) r
  | none => false

/-- `(?i)allow.*\by\b.*\bn\b` at a position.  After the literal `allow` the
previous character is the word character `w`, so the first `\b` can only be
satisfied after `.*` has skipped at least one non-word character. -/
def permP2at (_ : Option Char) (s : List Char) : Bool :=
  match stripCI "allow".data s with
  | some r =>
    dotStarThenP (fun prev t =>
      !isWordOpt prev &&
      (match t with
       | c :: rest =>
         c.toLower = 'y' && boundaryAfter rest &&
         dotStarThenP (fun prev2 u =>
           !isWordOpt prev2 &&
           (match u with
            | d :: rest2 => d.toLower = 'n' && boundaryAfter rest2
            | [] => false)) (some c) rest
       | [] => false)) (some 'w') r
  | none => false

/-- `(?i)\bapprove\b.*\bdeny\b` at a position. -/
def permP3at (prev : Option Char) (s : List Char) : Bool :=
  !isWordOpt prev &&
  (match stripCI "approve".data s with
   | some r =>
     boundaryAfter r &&
     dotStarThenP (fun prev2 t =>
       !isWordOpt prev2 &&
       (match stripCI "deny".data t with
        | some u => boundaryAfter u
        | none => false)) (some 'e') r
   | none => false)

/-- `(?i)do you want to\b` at a position. -/
def permP4at (_ : Option Char) (s : List Char) : Bool :=
  match stripCI "do you want to".data s with
  | some r => boundaryAfter r
  | none => false

/-- `(?i)permission requested` at a position. -/
def permP5at (_ : Option Char) (s : List Char) : Bool :=
  (stripCI "permission requested".data s).isSome

/-- `(?i)allow\s+(once|always)` at a position. -/
def permP6at (_ : Option Char) (s : List Char) : Bool :=
  match stripCI "allow".data s with
  | some r =>
    wsPlusThen (fun t =>
      (stripCI "once".data t).isSome || (stripCI "always".data t).isSome) r
  | none => false

def PERMISSION_MATCHERS : List (Option Char → List Char → Bool) :=
  [permP1at, permP2at, permP3at, permP4at, permP5at, permP6at]

/-! ### Error patterns (`detector.rs` `ERROR_PATTERNS`) -/

/-- `(?m)^.*\bError:.*$` at a position: an occurrence of the case-sensitive
literal `Error:` whose preceding character is a word boundary (`^.*` reaches
every position of a line from its start, so the line anchors impose nothing
further). -/
def errP1at (prev : Option Char) (s : List Char) : Bool :=
  !isWordOpt prev && (stripCS "Error:".data s).isSome

/-- `(?m)^.*\berror:.*$` at a position. -/
def errP2at (prev : Option Char) (s : List Char) : Bool :=
  !isWordOpt prev && (stripCS "error:".data s).isSome

/-- `(?i)\bfailed\b` at a position. -/
def errP3at (prev : Option Char) (s : List Char) : Bool :=
  !isWordOpt prev &&
  (match stripCI "failed".data s with
   | some r => boundaryAfter r
   | none => false)

/-- `(?i)\bpanic\b` at a position. -/
def errP4at (prev : Option Char) (s : List Char) : Bool :=
  !isWordOpt prev &&
  (match stripCI "panic".data s with
   | some r => boundaryAfter r
   | none => false)

/-- The apostrophe character `'`. -/
def squote : Char := Char.ofNat 39

/-- `(?i)thread\s+'.*'\s+panicked` at a position. -/
def errP5at (_ : Option Char) (s : List Char) : Bool :=
  match stripCI "thread".data s with
  | some r =>
    wsPlusThen (fun t =>
      match t with
      | c :: u =>
        c = squote &&
        dotStarThen (fun v =>
          match v with
          | d :: w =>
            d = squote &&
            wsPlusThen (fun x => (stripCI "panicked".data x).isSome) w
          | [] => false) u
      | [] => false) r
  | none => false

def ERROR_MATCHERS : List (Option Char → List Char → Bool) :=
  [errP1at, errP2at, errP3at, errP4at, errP5at]

/-! ### Done patterns (`detector.rs` `DONE_PATTERNS`) -/

def doneP1at (_ : Option Char) (s : List Char) : Bool :=
  (stripCI "session ended".data s).isSome

def doneP2at (_ : Option Char) (s : List Char) : Bool :=
  (stripCI "process exited".data s).isSome

def doneP3at (_ : Option Char) (s : List Char) : Bool :=
  (stripCI "connection closed".data s).isSome

def DONE_MATCHERS : List (Option Char → List Char → Bool) :=
  [doneP1at, doneP2at, doneP3at]

/-- `matches_any(text, patterns)` for the built-in pattern tables. -/
def matchesAny (ms : List (Option Char → List Char → Bool)) (s : List Char) : Bool :=
  ms.any (fun p => scanP p none s)

/-! ### Idle patterns (`detector.rs` `IDLE_PATTERNS`)

Each idle pattern has the shape `^\s*X\s*$`, so a haystack matches exactly
when it consists of whitespace around the single prompt character. -/

/-- Whole-string matcher for `^\s*[c…]\s*$` with prompt characters `cs`. -/
def promptOnly (cs : List Char) (line : List Char) : Bool :=
  match line.dropWhile isWs with
  | c :: t => cs.contains c && t.all isWs
  | [] => false

def idleP1 (line : List Char) : Bool :=
  promptOnly [Char.ofNat 0x276F, Char.ofNat 0x2771, '>'] line

def idleP2 (line : List Char) : Bool := promptOnly ['$'] line

def idleP3 (line : List Char) : Bool := promptOnly ['%'] line

def IDLE_MATCHERS : List (List Char → Bool) := [idleP1, idleP2, idleP3]

/-! ### Status enums

`src/pod/mod.rs` in the tree is the earlier iteration of the pod module (its
`MemberStatus` has five variants and priorities Permission=4 … Done=0).  The
iteration the rest of the tree compiles against additionally has a `Dead`
variant (used by `src/tui/app.rs`) and is not under src/.
Modelled from the spec: §3 lists the variants priority-ordered highest first
as Permission, Error, Working, Idle, Done, Dead; the numeric priorities below
realise that order and agree with the earlier iteration on the five shared
variants. -/

inductive MemberStatus where
  | Idle | Working | Permission | Error | Done | Dead
  deriving DecidableEq, Repr

def MemberStatus.priority : MemberStatus → Nat
  | .Permission => 5
  | .Error => 4
  | .Working => 3
  | .Idle => 2
  | .Done => 1
  | .Dead => 0

inductive PodStatus where
  | Idle | Working | Permission | Error | Done | Dead
  deriving DecidableEq, Repr

/-- The pod status with the same name as a member status (used by the
roll-up, which maps the maximal member priority back to a `PodStatus`). -/
def MemberStatus.toPodStatus : MemberStatus → PodStatus
  | .Permission => .Permission
  | .Error => .Error
  | .Working => .Working
  | .Idle => .Idle
  | .Done => .Done
  | .Dead => .Dead

inductive PodType where
  | Solo | Team
  deriving DecidableEq, Repr

/-- Oracle for the user-supplied regex lists: `matches_any_dynamic` compiles
each pattern string at run time and tests it; a pattern that fails to compile
is skipped, which the oracle represents by answering `false`.  All theorems
are quantified over the oracle. -/
structure DynMatcher where
  isMatch : String → String → Bool

/-- `matches_any_dynamic(text, patterns)`. -/
def matchesAnyDynamic (dyn : DynMatcher) (patterns : List String) (text : List Char) : Bool :=
  patterns.any (fun p => dyn.isMatch p (String.mk text))

/-- The 15-line tail text examined by status detection. -/
def statusTailText (output : String) : List Char :=
  intercalateNl (tailK 15 (rustLines (rustTrim output.data)))

/-- Last line of the 15-line tail (`tail.last()`). -/
def statusTailLast (output : String) : Option (List Char) :=
  (tailK 15 (rustLines (rustTrim output.data))).getLast?

/-- `detect_member_status_with_config` (`detector.rs:63-103`). -/
def detect_member_status_with_config (dyn : DynMatcher) (output : String)
    (extra_permission extra_error extra_idle : List String) : MemberStatus :=
  let trimmed := rustTrim output.data
  if trimmed.isEmpty then .Done
  else
    let tail := tailK 15 (rustLines trimmed)
    let tail_text := intercalateNl tail
    if matchesAny PERMISSION_MATCHERS tail_text ||
       matchesAnyDynamic dyn extra_permission tail_text then .Permission
    else if matchesAny ERROR_MATCHERS tail_text ||
       matchesAnyDynamic dyn extra_error tail_text then .Error
    else if matchesAny DONE_MATCHERS tail_text then .Done
    else
      match tail.getLast? with
      | some last =>
        if IDLE_MATCHERS.any (fun m => m last) ||
           matchesAnyDynamic dyn extra_idle last then .Idle
        else .Working
      | none => .Working

/-- `detect_member_status` (`detector.rs:113-150`; the source duplicates the
algorithm of the `_with_config` variant without the dynamic patterns). -/
def detect_member_status (output : String) : MemberStatus :=
  let trimmed := rustTrim output.data
  if trimmed.isEmpty then .Done
  else
    let tail := tailK 15 (rustLines trimmed)
    let tail_text := intercalateNl tail
    if matchesAny PERMISSION_MATCHERS tail_text then .Permission
    else if matchesAny ERROR_MATCHERS tail_text then .Error
    else if matchesAny DONE_MATCHERS tail_text then .Done
    else
      match tail.getLast? with
      | some last =>
        if IDLE_MATCHERS.any (fun m => m last) then .Idle
        else .Working
      | none => .Working

/-- `rollup_status` (`detector.rs:193-203`): the status of maximal priority,
`Idle` on an empty list.  Rust `max_by_key` keeps the last of equal maxima,
which is observationally irrelevant here since `priority` is injective. -/
def rollup_status (statuses : List MemberStatus) : MemberStatus :=
  match statuses with
  | [] => .Idle
  | s :: rest => rest.foldl (fun acc t => if acc.priority ≤ t.priority then t else acc) s

/-! ### Permission-request parsing (`detector.rs:156-188`) -/

structure PermissionRequest where
  tool : String
  command : String
  detail : String
  deriving DecidableEq, Repr

/-- Leftmost-first scan returning the first position where `f` produces a
capture, carrying the previous character. -/
def scanFirstP (f : Option Char → List Char → Option (List Char)) :
    Option Char → List Char → Option (List Char)
  | prev, [] => f prev []
  | prev, c :: cs =>
    match f prev (c :: cs) with
    | some r => some r
    | none => scanFirstP f (some c) cs

/-- Leftmost-first scan without boundary context. -/
def scanFirstS {α : Type} (f : List Char → Option α) : List Char → Option α
  | [] => f []
  | c :: cs =>
    match f (c :: cs) with
    | some r => some r
    | none => scanFirstS f cs

/-- `TOOL_PATTERNS` alternatives, in alternation order. -/
def TOOL_WORDS : List (List Char) :=
  ["bash".data, "write".data, "read".data, "edit".data,
   "grep".data, "glob".data, "search".data, "notebook".data]

/-- `(?i)\b(bash|write|read|edit|grep|glob|search|notebook)\b` capture at a
position; the capture is the matched slice of the haystack (original case). -/
def toolCaptureAt (prev : Option Char) (s : List Char) : Option (List Char) :=
  if isWordOpt prev then none
  else
    TOOL_WORDS.findSome? (fun w =>
      match stripCI w s with
      | some r => if boundaryAfter r then some (s.take w.length) else none
      | none => none)

/-- `extract_first_match(text, TOOL_PATTERNS)`. -/
def extractToolName (s : List Char) : Option (List Char) :=
  scanFirstP toolCaptureAt none s

/-- The backtick character. -/
def tickChar : Char := Char.ofNat 96

def tripleTick : List Char := [tickChar, tickChar, tickChar]

/-- Lazy body of `(.*?)` up to the first closing triple backtick. -/
def firstUpToTriple : List Char → Option (List Char)
  | [] => none
  | c :: cs =>
    if (stripCS tripleTick (c :: cs)).isSome then some []
    else (firstUpToTriple cs).map (fun b => c :: b)

/-- Match of \x60\x60\x60`[^\n]*\n(.*?)`\x60\x60\x60 starting exactly here. -/
def codeBlockAt (s : List Char) : Option (List Char) :=
  match stripCS tripleTick s with
  | none => none
  | some r =>
    match r.dropWhile (fun c => decide (c ≠ '\n')) with
    | c :: body => if c = '\n' then firstUpToTriple body else none
    | [] => none

/-- `extract_code_block` (`detector.rs:350-355`): leftmost opening fence with
a newline on its line and a later closing fence; lazy capture, then trimmed. -/
def extract_code_block (s : List Char) : Option (List Char) :=
  (scanFirstS codeBlockAt s).map rustTrim

/-- The 20-line tail text examined by `parse_permission_request`. -/
def permTailText (output : String) : List Char :=
  intercalateNl (tailK 20 (rustLines (rustTrim output.data)))

/-- `parse_permission_request` (`detector.rs:156-188`). -/
def parse_permission_request (output : String) : Option PermissionRequest :=
  let trimmed := rustTrim output.data
  if trimmed.isEmpty then none
  else
    let tail_text := intercalateNl (tailK 20 (rustLines trimmed))
    if !matchesAny PERMISSION_MATCHERS tail_text then none
    else
      some
        { tool := String.mk ((extractToolName tail_text).getD "unknown".data)
          command := String.mk ((extract_code_block tail_text).getD [])
          detail := String.mk tail_text }

/-! ### Assistant-pane heuristic and role naming (`discovery.rs`) -/

def claudeP1 (s : List Char) : Bool := containsCI "claude".data s

def claudeP2 (s : List Char) : Bool := s.contains (Char.ofNat 0x276F)

def claudeP3 (s : List Char) : Bool := containsCI "tool use".data s

/-- `(?i)\bBash\b.*\bRead\b` at a position. -/
def bashReadAt (prev : Option Char) (s : List Char) : Bool :=
  !isWordOpt prev &&
  (match stripCI "bash".data s with
   | some r =>
     boundaryAfter r &&
     dotStarThenP (fun prev2 t =>
       !isWordOpt prev2 &&
       (match stripCI "read".data t with
        | some u => boundaryAfter u
        | none => false)) (some 'h') r
   | none => false)

def claudeP4 (s : List Char) : Bool := scanP bashReadAt none s

def claudeP5 (s : List Char) : Bool := containsCI "anthropic".data s

def TOOL_LINE_WORDS : List (List Char) :=
  ["Read".data, "Write".data, "Edit".data, "Grep".data,
   "Glob".data, "Bash".data, "Task".data]

/-- `(?m)^\s{2}(Read|Write|Edit|Grep|Glob|Bash|Task)\s` at a position:
line start, two whitespace characters, a tool word (case-sensitive), then a
whitespace character. -/
def claudeP6at (prev : Option Char) (s : List Char) : Bool :=
  (match prev with
   | none => true
   | some c => c = '\n') &&
  (match s with
   | a :: b :: rest =>
     isWs a && isWs b &&
     TOOL_LINE_WORDS.any (fun w =>
       match stripCS w rest with
       | some (c :: _) => isWs c
       | some [] => false
       | none => false)
   | _ => false)

def claudeP6 (s : List Char) : Bool := scanP claudeP6at none s

def CLAUDE_CODE_MATCHERS : List (List Char → Bool) :=
  [claudeP1, claudeP2, claudeP3, claudeP4, claudeP5, claudeP6]

/-- `is_claude_code_pane` (`discovery.rs:70-86`): the source counts matching
patterns and tests `match_count >= 1`. -/
def is_claude_code_pane (output : String) : Bool :=
  if (rustTrim output.data).isEmpty then false
  else (CLAUDE_CODE_MATCHERS.countP (fun m => m output.data)) ≥ 1

/-- Characters of the regex class `[a-zA-Z0-9_-]`. -/
def isRoleChar (c : Char) : Bool :=
  c.isAlpha || c.isDigit || c = '-' || c = '_'

/-- Leftmost capture of `@([a-zA-Z][a-zA-Z0-9_-]*)`. -/
def atNameCapture : List Char → Option (List Char)
  | [] => none
  | '@' :: rest =>
    (match rest with
     | c :: rest2 =>
       if c.isAlpha then some (c :: rest2.takeWhile isRoleChar)
       else atNameCapture rest
     | [] => none)
  | _ :: rest => atNameCapture rest

/-- `(?i)\b(lead|team.?lead|leader)\b` at a position. -/
def leadAt (prev : Option Char) (s : List Char) : Bool :=
  !isWordOpt prev &&
  ((match stripCI "lead".data s with
    | some r => boundaryAfter r
    | none => false) ||
   (match stripCI "leader".data s with
    | some r => boundaryAfter r
    | none => false) ||
   (match stripCI "team".data s with
    | some r =>
      (match stripCI "lead".data r with
       | some u => boundaryAfter u
       | none => false) ||
      (match r with
       | c :: r2 =>
         decide (c ≠ '\n') &&
         (match stripCI "lead".data r2 with
          | some u => boundaryAfter u
          | none => false)
       | [] => false)
    | none => false))

def leadMatch (s : List Char) : Bool := scanP leadAt none s

def isColonWs (c : Char) : Bool := c = ':' || isWs c

/-- The capture `([a-zA-Z][a-zA-Z0-9_-]+)`: a letter followed by the greedy
maximal run of role characters, at least one. -/
def capToken : List Char → Option (List Char)
  | c :: rest =>
    if c.isAlpha then
      (let run := rest.takeWhile isRoleChar
       if run.isEmpty then none else some (c :: run))
    else none
  | [] => none

/-- `[:\s]+` (greedy, wlog maximal since the capture needs a letter) then the
capture token. -/
def colonWsCap (r : List Char) : Option (List Char) :=
  let m := (r.takeWhile isColonWs).length
  if m = 0 then none else capToken (r.drop m)

/-- The middle part `\s*(?:name)?[:\s]+` of the first teammate-name pattern,
with the engine's backtracking order: the greedy `\s*` run shrinks from
maximal to empty, and at each length the optional `name` is tried first. -/
def agentMid (r : List Char) : Option (List Char) :=
  let N := (r.takeWhile isWs).length
  (List.range (N + 1)).findSome? (fun i =>
    let rest := r.drop (N - i)
    match stripCI "name".data rest with
    | some r2 =>
      (match colonWsCap r2 with
       | some cap => some cap
       | none => colonWsCap rest)
    | none => colonWsCap rest)

/-- `(?i)(?:agent|teammate|worker)\s*(?:name)?[:\s]+([a-zA-Z][a-zA-Z0-9_-]+)`
at a position. -/
def agentKeywordAt (s : List Char) : Option (List Char) :=
  ["agent".data, "teammate".data, "worker".data].findSome? (fun w =>
    match stripCI w s with
    | some r => agentMid r
    | none => none)

/-- `(?i)I am\s+([a-zA-Z][a-zA-Z0-9_-]+)` at a position. -/
def iAmAt (s : List Char) : Option (List Char) :=
  match stripCI "i am".data s with
  | some r =>
    let m := (r.takeWhile isWs).length
    if m = 0 then none else capToken (r.drop m)
  | none => none

/-- Generic words rejected by the teammate-name extraction. -/
def GENERIC_WORDS : List (List Char) :=
  ["the".data, "a".data, "an".data, "this".data, "that".data,
   "claude".data, "code".data]

/-- `detect_role_name` (`discovery.rs:89-130`). -/
def detect_role_name (output : String) (fallback_index : Nat) : String :=
  match atNameCapture output.data with
  | some name => String.mk name
  | none =>
    if leadMatch output.data then "lead"
    else
      match
        [scanFirstS agentKeywordAt, scanFirstS iAmAt].findSome? (fun f =>
          match f output.data with
          | some n =>
            if GENERIC_WORDS.contains (n.map Char.toLower) then none else some n
          | none => none) with
      | some n => String.mk n
      | none => "member-" ++ toString fallback_index

/-! ### Sub-agent parsing (`detector.rs:216-305`) -/

structure SubAgent where
  agent_type : String
  description : String
  deriving DecidableEq, Repr

/-- Greedy maximal `\s+`: deterministic because every following pattern
element starts with a non-whitespace character. -/
def wsPlusD (s : List Char) : Option (List Char) :=
  let n := (s.takeWhile isWs).length
  if n = 0 then none else some (s.drop n)

/-- Greedy maximal `\d+` with its decimal value. -/
def digitsD (s : List Char) : Option (Nat × List Char) :=
  let ds := s.takeWhile Char.isDigit
  if ds.isEmpty then none
  else some (ds.foldl (fun acc c => acc * 10 + (c.toNat - 48)) 0, s.drop ds.length)

/-- `s?` followed by a continuation (both branches, as the engine would). -/
def pluralThen (k : List Char → Bool) (r : List Char) : Bool :=
  (match r with
   | c :: rest => (c = 's' && k rest) || k r
   | [] => k [])

/-- `(\d+)\s+agents?\s+running\s+in\s+the\s+background` at a position. -/
def countP1at (s : List Char) : Option Nat :=
  match digitsD s with
  | none => none
  | some (n, r) =>
    let tailOk :=
      match (wsPlusD r).bind (stripCS "agent".data) with
      | none => false
      | some r2 =>
        pluralThen (fun t =>
          (((((wsPlusD t).bind (stripCS "running".data)).bind wsPlusD).bind
            (stripCS "in".data)).bind wsPlusD |>.bind (stripCS "the".data)
            |>.bind wsPlusD |>.bind (stripCS "background".data)).isSome) r2
    if tailOk then some n else none

/-- `(\d+)\s+local\s+agents?` at a position (the trailing `s?` imposes
nothing on a search match). -/
def countP2at (s : List Char) : Option Nat :=
  match digitsD s with
  | none => none
  | some (n, r) =>
    if ((((wsPlusD r).bind (stripCS "local".data)).bind wsPlusD).bind
        (stripCS "agent".data)).isSome then some n else none

/-- `Running\s+(\d+)\s+Task\s+agents?` at a position. -/
def countP3at (s : List Char) : Option Nat :=
  match (stripCS "Running".data s).bind wsPlusD with
  | none => none
  | some r =>
    match digitsD r with
    | none => none
    | some (n, r2) =>
      if ((((wsPlusD r2).bind (stripCS "Task".data)).bind wsPlusD).bind
          (stripCS "agent".data)).isSome then some n else none

/-- `Running\s+(\d+)\s+agents?` at a position. -/
def countP4at (s : List Char) : Option Nat :=
  match (stripCS "Running".data s).bind wsPlusD with
  | none => none
  | some r =>
    match digitsD r with
    | none => none
    | some (n, r2) =>
      if ((wsPlusD r2).bind (stripCS "agent".data)).isSome then some n else none

/-- `parse_sub_agent_count` (`detector.rs:283-305`): first match of each
pattern, maximum over the patterns, `0` when none match. -/
def parse_sub_agent_count (s : List Char) : Nat :=
  [scanFirstS countP1at s, scanFirstS countP2at s,
   scanFirstS countP3at s, scanFirstS countP4at s].foldl
    (fun acc o => max acc (o.getD 0)) 0

def middleDot : Char := Char.ofNat 183

/-- Whole-string membership in `\s+·\s+\d+\s+tool\s+uses?`. -/
def inLangA (s : List Char) : Bool :=
  match ((((wsPlusD s).bind (stripCS [middleDot])).bind wsPlusD).bind
      (fun t => (digitsD t).map Prod.snd)).bind wsPlusD |>.bind
      (stripCS "tool".data) |>.bind wsPlusD |>.bind (stripCS "use".data) with
  | some rest => rest.isEmpty || rest = ['s']
  | none => false

/-- Whole-string membership in `\s+·\s+[\d.]+k?\s+tokens?`. -/
def inLangB (s : List Char) : Bool :=
  match ((wsPlusD s).bind (stripCS [middleDot])).bind wsPlusD with
  | none => false
  | some r =>
    let run := r.takeWhile (fun c => c.isDigit || c = '.')
    if run.isEmpty then false
    else
      let r2 := r.drop run.length
      let tokTail := fun (t : List Char) =>
        (match (wsPlusD t).bind (stripCS "token".data) with
         | some rest => rest.isEmpty || rest = ['s']
         | none => false)
      (match r2 with
       | c :: r3 => (c = 'k' && tokTail r3) || tokTail r2
       | [] => false)

/-- Whole-string membership in `(?:\s+·\s+\d+\s+tool\s+uses?)?(?:\s+·\s+[\d.]+k?\s+tokens?)?`
(what must follow the lazy capture up to the line-end anchor). -/
def suffixOk (rem : List Char) : Bool :=
  rem.isEmpty || inLangA rem || inLangB rem ||
  (List.range rem.length).any (fun i => inLangA (rem.take i) && inLangB (rem.drop i))

/-- Backtracking of `\s*(.+?)` before the optional suffixes: the greedy `\s*`
run shrinks from maximal, and for each the lazy capture grows from one
non-newline character until the remainder matches the suffixes. -/
def detailCapture (afterDash : List Char) : Option (List Char) :=
  let N := (afterDash.takeWhile isWs).length
  (List.range (N + 1)).findSome? (fun i =>
    let rest := afterDash.drop (N - i)
    (List.range rest.length).findSome? (fun j =>
      if (rest.take (j + 1)).all (fun c => decide (c ≠ '\n')) &&
         suffixOk (rest.drop (j + 1)) then
        some (rest.take (j + 1))
      else none))

def boxTee : Char := Char.ofNat 0x251C

def boxCorner : Char := Char.ofNat 0x2514

def boxDash : Char := Char.ofNat 0x2500

/-- The detail-line regex `[├└]─\s*(.+?)(?:…tool uses)?(?:…tokens)?$` match
starting exactly here. -/
def detailAt : List Char → Option (List Char)
  | a :: b :: rest =>
    if (a = boxTee || a = boxCorner) && b = boxDash then detailCapture rest
    else none
  | _ => none

/-- `infer_agent_type` (`detector.rs:264-275`). -/
def infer_agent_type (description : String) : String :=
  let lower := description.data.map Char.toLower
  if containsCS "explore".data lower || containsCS "search".data lower ||
     containsCS "find".data lower then "Explore"
  else if containsCS "plan".data lower || containsCS "design".data lower then "Plan"
  else if containsCS "test".data lower || containsCS "build".data lower then "Bash"
  else "Task"

/-- `parse_sub_agents` (`detector.rs:216-261`). -/
def parse_sub_agents (output : String) : List SubAgent :=
  let trimmed := rustTrim output.data
  if trimmed.isEmpty then []
  else
    let expected_count := parse_sub_agent_count trimmed
    if expected_count = 0 then []
    else
      let agents := (rustLines trimmed).filterMap (fun line =>
        let line := rustTrim line
        (scanFirstS detailAt line).map (fun cap =>
          let description := String.mk (rustTrim cap)
          SubAgent.mk (infer_agent_type description) description))
      if agents.isEmpty then
        (List.range expected_count).map (fun i =>
          SubAgent.mk "Task" ("agent " ++ toString (i + 1)))
      else agents

/-! ### Data model

The `Member` and `Pod` structures of the current iteration (the one
`discovery.rs` and `tui/app.rs` compile against; the `pod/mod.rs` in the tree
is the earlier five-status iteration).  Fields not under src/ are modelled
from the spec: §3 lists a Pod's attributes (name, pod type, session,
optional project, optional group, status, members, creation timestamp,
working-time counter) and a Member's attributes.  Timestamps are modelled as
seconds (`Utc` epoch seconds for `last_change`/`created_at`, monotonic
milliseconds for the `Instant` in `last_polled`).  The fields
`last_output_ansi` and `pane_size`, which only feed the detail view and the
renderer (out of every claim's scope), are omitted. -/

structure Member where
  role : String
  status : MemberStatus
  tmux_pane : String
  last_change : Nat
  last_output : String
  last_polled : Option Nat
  working_secs : Nat
  sub_agents : List SubAgent
  deriving DecidableEq, Repr

structure Pod where
  name : String
  pod_type : PodType
  members : List Member
  status : PodStatus
  tmux_session : String
  project : Option String
  group : Option String
  created_at : Nat
  total_working_secs : Nat
  deriving DecidableEq, Repr

/-- Pod roll-up (`Pod::rollup_status`; the earlier iteration is at
`src/pod/mod.rs:92-112`, the current one additionally handles `Dead`.
Modelled from the spec for `Dead`: §3 orders it below `Done`): the status of
maximal member priority, `Idle` for an empty member list. -/
def rollupOf (p : Pod) : PodStatus :=
  if p.members.isEmpty then .Idle
  else (rollup_status (p.members.map (·.status))).toPodStatus

def Pod.applyRollup (p : Pod) : Pod :=
  { p with status := rollupOf p }

/-- Environment oracle for the tmux adapter calls and clocks used by the
refresh paths.  `listPanes` returns the pane ids of `Tmux::list_panes`
(`none` = the call failed); `capturePane` is `Tmux::capture_pane`
(`none` = failed); `nowSec` is `Utc::now()` in epoch seconds and `nowMs`
`Instant::now()` in milliseconds. -/
structure Env where
  sessionExists : String → Bool
  listPanes : String → Option (List String)
  capturePane : String → Option String
  nowSec : Nat
  nowMs : Nat

/-- The pane ids owned by any pod sharing `pod`'s session
(`discovery.rs:26-30`). -/
def knownPanes (pod : Pod) (all_pods : List Pod) : List String :=
  ((all_pods.filter (fun p => p.tmux_session = pod.tmux_session)).flatMap
    (fun p => p.members)).map (fun m => m.tmux_pane)

/-- One freshly discovered member (`discovery.rs:52-63`). -/
def newDiscoveredMember (env : Env) (role pane output : String) : Member :=
  { role := role
    status := .Working
    tmux_pane := pane
    last_change := env.nowSec
    last_output := output
    last_polled := none
    working_secs := 0
    sub_agents := [] }

/-- The pane loop of `discover_new_members`, accumulating new members in
order (`acc.length + pod.members.length` is the fallback index the source
passes to `detect_role_name`). -/
def discoverGo (env : Env) (pod : Pod) (known : List String) :
    List String → List Member → List Member
  | [], acc => acc
  | pid :: rest, acc =>
    if known.contains pid then discoverGo env pod known rest acc
    else
      match env.capturePane pid with
      | none => discoverGo env pod known rest acc
      | some output =>
        if !is_claude_code_pane output then discoverGo env pod known rest acc
        else
          let role := detect_role_name output (acc.length + pod.members.length)
          discoverGo env pod known rest
            (acc ++ [newDiscoveredMember env role pid output])

/-- `discover_new_members` (`discovery.rs:19-67`). -/
def discover_new_members (env : Env) (pod : Pod) (all_pods : List Pod) :
    List Member :=
  match env.listPanes pod.tmux_session with
  | none => []
  | some panes => discoverGo env pod (knownPanes pod all_pods) panes []

/-- `create_child_pods` (`discovery.rs:146-175`): the updated parent paired
with the children. -/
def create_child_pods (env : Env) (parent : Pod) (discovered : List Member) :
    Pod × List Pod :=
  if discovered.isEmpty then (parent, [])
  else
    let group_name := parent.group.getD parent.name
    let parent' :=
      if parent.group.isNone then { parent with group := some parent.name }
      else parent
    (parent',
     discovered.map (fun member =>
       { name := parent.name ++ "/" ++ member.role
         pod_type := .Solo
         tmux_session := parent.tmux_session
         project := parent.project
         group := some group_name
         status := .Idle
         members := [member]
         created_at := env.nowSec
         total_working_secs := 0 }))

/-- The names of group-root pods (`discovery.rs:184-191`). -/
def parentNames (pods : List Pod) : List String :=
  pods.filterMap (fun p =>
    p.group.bind (fun g => if g = p.name then some p.name else none))

/-- The `retain` predicate of `remove_orphan_child_pods`
(`discovery.rs:193-213`). -/
def orphanKeep (parent_names : List String) (pod : Pod) : Bool :=
  if !pod.members.isEmpty then true
  else
    match pod.group with
    | none => true
    | some g =>
      if pod.name = g || parent_names.contains pod.name then true
      else false

/-- `remove_orphan_child_pods` (`discovery.rs:182-214`). -/
def remove_orphan_child_pods (pods : List Pod) : List Pod :=
  pods.filter (orphanKeep (parentNames pods))

/-- `remove_stale_members` (`discovery.rs:217-228`). -/
def remove_stale_members (env : Env) (pod : Pod) : Pod :=
  match env.listPanes pod.tmux_session with
  | none => pod
  | some panes =>
    { pod with members := pod.members.filter (fun m => panes.contains m.tmux_pane) }

/-! ### Event ingest (`hooks.rs`) -/

structure HookEvent where
  event : String
  tool : Option String
  session : Option String
  timestamp : Option String
  agent_id : Option String
  agent_type : Option String
  deriving DecidableEq, Repr

/-- `HookEvent::inferred_status` (`hooks.rs:26-35`). -/
def HookEvent.inferred_status (e : HookEvent) : Option MemberStatus :=
  match e.event with
  | "tool_start" => some .Working
  | "tool_end" => some .Working
  | "permission" => some .Permission
  | "error" => some .Error
  | "subagent_start" => some .Working
  | "subagent_stop" => some .Working
  | _ => none

/-- `HookEvent::is_subagent_event` (`hooks.rs:38-40`). -/
def HookEvent.is_subagent_event (e : HookEvent) : Bool :=
  e.event = "subagent_start" || e.event = "subagent_stop"

/-- The chunks `BufRead::read_line` yields: maximal pieces ending in `'\n'`,
the final piece possibly unterminated.  The file's bytes are modelled as
characters (the event log is ASCII JSON lines). -/
def splitLinesKeep : List Char → List (List Char)
  | [] => []
  | c :: cs =>
    if c = '\n' then [c] :: splitLinesKeep cs
    else
      match splitLinesKeep cs with
      | [] => [[c]]
      | l :: ls => (c :: l) :: ls

/-- `HooksReceiver::poll_events` (`hooks.rs:64-103`) over a file state:
`file = none` models a failed open (absent file), `cursor` is
`last_position`.  `parse` is the external `serde_json::from_str::<HookEvent>`
line parser (`none` = malformed line, skipped).  Returns the drained events
and the new cursor. -/
def poll_events (parse : String → Option HookEvent)
    (file : Option (List Char)) (cursor : Nat) : List HookEvent × Nat :=
  match file with
  | none => ([], cursor)
  | some content =>
    let pos := if content.length < cursor then 0 else cursor
    let rest := content.drop pos
    let events := (splitLinesKeep rest).filterMap (fun l =>
      parse (String.mk (rustTrim l)))
    (events, pos + rest.length)

/-! ### Tmux list operations (`tmux/mod.rs`) -/

structure TmuxSession where
  name : String
  windows : Nat
  created : String
  deriving DecidableEq, Repr

structure TmuxPane where
  id : String
  session : String
  window_index : Nat
  pane_index : Nat
  active : Bool
  title : String
  pid : Option Nat
  deriving DecidableEq, Repr

/-- The captured output of one tmux invocation. -/
structure CmdOutput where
  success : Bool
  stdout : String
  stderr : String
  deriving DecidableEq, Repr

/-- The no-server test applied to stderr (`tmux/mod.rs:53,110`). -/
def noServerStderr (stderr : String) : Bool :=
  containsCS "no server running".data stderr.data ||
  containsCS "error connecting".data stderr.data

/-- Rust `str::parse::<usize>`: optional sign, at least one digit, nothing
else (overflow is ignored; the inputs in scope are small). -/
def parseUsize (s : List Char) : Option Nat :=
  let body := match s with
    | '+' :: rest => rest
    | other => other
  if body.isEmpty || !body.all Char.isDigit then none
  else some (body.foldl (fun acc c => acc * 10 + (c.toNat - 48)) 0)

/-- Rust `splitn(n, sep)`: at most `n` pieces, the last keeping any further
separators. -/
def splitnChar : Nat → Char → List Char → List (List Char)
  | 0, _, _ => []
  | 1, _, s => [s]
  | n + 2, sep, s =>
    match s.findIdx? (fun c => c = sep) with
    | none => [s]
    | some i => s.take i :: splitnChar (n + 1) sep (s.drop (i + 1))

/-- The session-line parse of `list_sessions` (`tmux/mod.rs:62-72`). -/
def parseSessionLines (stdout : String) : List TmuxSession :=
  (rustLines stdout.data).filterMap (fun line =>
    let parts := splitnChar 3 (Char.ofNat 124) line
    match parts with
    | [a, b, c] =>
      some { name := String.mk a
             windows := (parseUsize b).getD 0
             created := String.mk c }
    | _ => none)

/-- `parse_panes` (`tmux/mod.rs:503-524`). -/
def parse_panes (stdout : String) : List TmuxPane :=
  (rustLines stdout.data).filterMap (fun line =>
    let parts := splitnChar 7 (Char.ofNat 124) line
    match parts with
    | [a, b, c, d, e, f, g] =>
      some { id := String.mk a
             session := String.mk b
             window_index := (parseUsize c).getD 0
             pane_index := (parseUsize d).getD 0
             active := e = ['1']
             title := String.mk f
             pid := parseUsize (rustTrim g) }
    | _ => none)

/-- `Tmux::list_sessions` (`tmux/mod.rs:44-75`) as a function of the
invocation's output: a failed invocation whose stderr reports no server
yields an empty list, any other failure an error. -/
def list_sessions (out : CmdOutput) : Except String (List TmuxSession) :=
  if !out.success then
    if noServerStderr out.stderr then .ok []
    else .error ("tmux list-sessions failed: " ++ String.mk (rustTrim out.stderr.data))
  else .ok (parseSessionLines out.stdout)

/-- `Tmux::list_panes` (`tmux/mod.rs:78-95`): every failed invocation is an
error (there is no no-server branch here). -/
def list_panes (session : String) (out : CmdOutput) :
    Except String (List TmuxPane) :=
  if !out.success then
    .error ("tmux list-panes failed for session " ++ String.mk [squote] ++
      session ++ String.mk [squote] ++ ": " ++ String.mk (rustTrim out.stderr.data))
  else .ok (parse_panes out.stdout)

/-- `Tmux::list_all_panes` (`tmux/mod.rs:98-117`). -/
def list_all_panes (out : CmdOutput) : Except String (List TmuxPane) :=
  if !out.success then
    if noServerStderr out.stderr then .ok []
    else .error ("tmux list-panes -a failed: " ++ String.mk (rustTrim out.stderr.data))
  else .ok (parse_panes out.stdout)

/-! ### The status engine (`tui/app.rs`)

The refresh paths are embedded over the `Env` oracle.  The TUI-only parts of
`App`/`AppState` (mode machine, detail stream, chat, browser) are outside
every claim and are not modelled; `previous_permission_pods` (a `HashSet`) is
modelled as a list of names. -/

structure PollingConfig where
  focused_interval_ms : Nat
  permission_interval_ms : Nat
  working_interval_ms : Nat
  idle_interval_ms : Nat
  error_interval_ms : Nat
  deriving DecidableEq, Repr

structure DetectionConfig where
  permission_patterns : List String
  error_patterns : List String
  idle_patterns : List String
  deriving DecidableEq, Repr

structure AppConfig where
  polling : PollingConfig
  detection : DetectionConfig
  notification_enabled : Bool
  deriving DecidableEq, Repr

structure AppState where
  pods : List Pod
  focus : Option Nat
  current_permission : Option PermissionRequest
  previous_permission_pods : List String
  deriving DecidableEq, Repr

/-- The status-transition snippet shared verbatim by the three update sites
(`tui/app.rs:369-377`, `458-470`, `642-650`): on a change, credit
`working_secs` when leaving `Working`, then install the new status and
timestamp. -/
def creditTransition (nowSec : Nat) (new_status : MemberStatus) (m : Member) :
    Member :=
  if new_status ≠ m.status then
    let ws :=
      if m.status = .Working then m.working_secs + (nowSec - m.last_change)
      else m.working_secs
    { m with working_secs := ws, status := new_status, last_change := nowSec }
  else m

/-- The per-member capture-and-classify update of `refresh_pod_states`
(`tui/app.rs:361-382`) and of the polling loop (`tui/app.rs:635-662`). -/
def captureUpdateMember (env : Env) (cfg : AppConfig) (dyn : DynMatcher)
    (m : Member) : Member :=
  match env.capturePane m.tmux_pane with
  | none => m
  | some output =>
    let new_status := detect_member_status_with_config dyn output
      cfg.detection.permission_patterns cfg.detection.error_patterns
      cfg.detection.idle_patterns
    let m1 := creditTransition env.nowSec new_status m
    { m1 with sub_agents := parse_sub_agents output, last_output := output }

/-- Dead-session marking (`tui/app.rs:324-331`, `587-594`). -/
def markDead (pod : Pod) : Pod :=
  if pod.status ≠ .Dead then
    { pod with status := .Dead
               members := pod.members.map (fun m => { m with status := .Dead }) }
  else pod

/-- Dead-member revival on session reappearance (`tui/app.rs:332-340`,
`595-604`). -/
def reviveMembers (env : Env) (pod : Pod) : Pod :=
  if pod.status = .Dead then
    { pod with members := pod.members.map (fun m =>
        if m.status = .Dead then
          { m with status := .Idle, last_change := env.nowSec }
        else m) }
  else pod

/-- One index of the `refresh_pod_states` loop (`tui/app.rs:320-384`): the
in-place mutations of `self.state.pods[idx]` become `List.set`, and
`all_known` is the current list (mutated pod included) plus the children
created so far, as in the source. -/
def refreshStep (env : Env) (cfg : AppConfig) (dyn : DynMatcher)
    (pods newPods : List Pod) (i : Nat) : List Pod × List Pod :=
  match pods[i]? with
  | none => (pods, newPods)
  | some pod =>
    if !env.sessionExists pod.tmux_session then
      (pods.set i (markDead pod), newPods)
    else
      let pod1 := reviveMembers env pod
      let pod2 := remove_stale_members env pod1
      let podsA := pods.set i pod2
      let all_known := podsA ++ newPods
      let discovered := discover_new_members env pod2 all_known
      let pc := create_child_pods env pod2 discovered
      let pod4 := { pc.1 with
        members := pc.1.members.map (captureUpdateMember env cfg dyn) }
      (podsA.set i pod4.applyRollup, newPods ++ pc.2)

/-- The index loop, driven by the pod count taken before the loop
(`let pod_count = self.state.pods.len()`). -/
def refreshLoop (env : Env) (cfg : AppConfig) (dyn : DynMatcher) :
    Nat → Nat → List Pod → List Pod → List Pod × List Pod
  | 0, _, pods, newPods => (pods, newPods)
  | k + 1, i, pods, newPods =>
    let r := refreshStep env cfg dyn pods newPods i
    refreshLoop env cfg dyn k (i + 1) r.1 r.2

/-- The evolved original pods and the children created, after the per-pod
loop of `refresh_pod_states` and before the extend/orphan-cleanup tail. -/
def refreshEvolve (env : Env) (cfg : AppConfig) (dyn : DynMatcher)
    (pods : List Pod) : List Pod × List Pod :=
  refreshLoop env cfg dyn pods.length 0 pods []

/-- The permission scan after the refresh (`tui/app.rs:396-411`): the first
`Permission` member whose output parses to a request. -/
def findPermissionRequest (pods : List Pod) : Option PermissionRequest :=
  pods.findSome? (fun p => p.members.findSome? (fun m =>
    if m.status = .Permission then parse_permission_request m.last_output
    else none))

/-- `App::refresh_pod_states` (`tui/app.rs:316-433`).  The desktop
notification side effect is returned as the list of newly-Permission pod
names (`tui/app.rs:422-431`). -/
def refresh_pod_states (env : Env) (cfg : AppConfig) (dyn : DynMatcher)
    (st : AppState) : AppState × List String :=
  let ev := refreshEvolve env cfg dyn st.pods
  let pods2 := if ev.2.isEmpty then ev.1 else ev.1 ++ ev.2
  let pods3 := remove_orphan_child_pods pods2
  let current_permission := findPermissionRequest pods3
  let current_perm_pods := (pods3.filter (fun p => p.status = .Permission)).map
    (fun p => p.name)
  let notified :=
    if cfg.notification_enabled then
      current_perm_pods.filter (fun n => !st.previous_permission_pods.contains n)
    else []
  ({ pods := pods3
     focus := st.focus
     current_permission := current_permission
     previous_permission_pods := current_perm_pods }, notified)

/-- Session targeting of a hook event (`tui/app.rs:453-456`, `488-491`). -/
def sessionMatches (target : Option String) (pod : Pod) : Bool :=
  match target with
  | some sess => pod.tmux_session = sess || pod.name = sess
  | none => true

/-- The hook-driven member update (`tui/app.rs:458-471`): transition with
working-time credit, then clear `last_polled` unconditionally. -/
def hookApplyMember (env : Env) (hook_status : MemberStatus) (m : Member) :
    Member :=
  let m1 := creditTransition env.nowSec hook_status m
  { m1 with last_polled := none }

/-- Application of the last drained event's inferred status
(`tui/app.rs:445-476`). -/
def dispatchHookStatus (env : Env) (events : List HookEvent)
    (pods : List Pod) : List Pod :=
  match events.getLast? with
  | none => pods
  | some last =>
    match last.inferred_status with
    | none => pods
    | some hook_status =>
      pods.map (fun pod =>
        if sessionMatches last.session pod then
          { pod with members := pod.members.map (hookApplyMember env hook_status) }
        else pod)

/-- One sub-agent hook event applied to a member (`tui/app.rs:494-510`). -/
def applySubagentEvent (e : HookEvent) (m : Member) : Member :=
  let agent_type := e.agent_type.getD "Task"
  let agent_id := e.agent_id.getD ""
  match e.event with
  | "subagent_start" =>
    if m.sub_agents.any (fun a => a.description = agent_id) then m
    else { m with sub_agents := m.sub_agents ++ [SubAgent.mk agent_type agent_id] }
  | "subagent_stop" =>
    { m with sub_agents := m.sub_agents.filter (fun a => a.description ≠ agent_id) }
  | _ => m

/-- The sub-agent event loop (`tui/app.rs:478-512`). -/
def dispatchSubagentEvents (events : List HookEvent) (pods : List Pod) :
    List Pod :=
  events.foldl (fun pods e =>
    if !e.is_subagent_event then pods
    else
      pods.map (fun pod =>
        if sessionMatches e.session pod then
          { pod with members := pod.members.map (applySubagentEvent e) }
        else pod)) pods

/-- One index of the discovery loop inside the dynamic reload
(`tui/app.rs:552-572`); a dead session skips the whole iteration. -/
def reloadStep (env : Env) (pods newPods : List Pod) (i : Nat) :
    List Pod × List Pod :=
  match pods[i]? with
  | none => (pods, newPods)
  | some pod =>
    if !env.sessionExists pod.tmux_session then (pods, newPods)
    else
      let pod2 := remove_stale_members env pod
      let podsA := pods.set i pod2
      let all_known := podsA ++ newPods
      let discovered := discover_new_members env pod2 all_known
      let pc := create_child_pods env pod2 discovered
      (podsA.set i pc.1, newPods ++ pc.2)

def reloadLoop (env : Env) :
    Nat → Nat → List Pod → List Pod → List Pod × List Pod
  | 0, _, pods, newPods => (pods, newPods)
  | k + 1, i, pods, newPods =>
    let r := reloadStep env pods newPods i
    reloadLoop env k (i + 1) r.1 r.2

/-- The store merge of the dynamic reload (`tui/app.rs:522-527`): pods whose
name is not yet present are pushed one by one. -/
def mergeStored (stored : List Pod) (pods : List Pod) : List Pod :=
  stored.foldl (fun acc sp =>
    if acc.any (fun p => p.name = sp.name) then acc else acc ++ [sp]) pods

/-- The removal pass of the reload (`tui/app.rs:528-533`). -/
def retainStored (stored : List Pod) (pods : List Pod) : List Pod :=
  if !stored.isEmpty || pods.isEmpty then
    pods.filter (fun p => stored.any (fun sp => sp.name = p.name))
  else pods

/-- Focus adjustment of the reload (`tui/app.rs:535-547`). -/
def adjustFocusAfterReload (focus : Option Nat) (pods : List Pod) :
    Option Nat :=
  let f1 :=
    match focus with
    | some f =>
      if f ≥ pods.length then
        (if pods.isEmpty then none else some (pods.length - 1))
      else some f
    | none => none
  if f1.isNone && !pods.isEmpty then some 0 else f1

/-- The dynamic-reload phase of `selective_refresh` (`tui/app.rs:515-581`):
merge the stored roster (`storeLoad = none` models a failed `store.load()`),
then rerun stale-member removal, discovery and orphan cleanup. -/
def dynamicReload (env : Env) (storeLoad : Option (List Pod))
    (st : AppState) : AppState :=
  let st1 :=
    match storeLoad with
    | none => st
    | some stored =>
      let pods := mergeStored stored st.pods
      let pods := retainStored stored pods
      { st with pods := pods, focus := adjustFocusAfterReload st.focus pods }
  let rl := reloadLoop env st1.pods.length 0 st1.pods []
  let pods2 := if rl.2.isEmpty then rl.1 else rl.1 ++ rl.2
  { st1 with pods := remove_orphan_child_pods pods2 }

/-- The per-member polling interval (`tui/app.rs:609-621`). -/
def pollInterval (cfg : AppConfig) (is_focused : Bool) (m : Member) : Nat :=
  if is_focused then cfg.polling.focused_interval_ms
  else
    match m.status with
    | .Permission => cfg.polling.permission_interval_ms
    | .Working => cfg.polling.working_interval_ms
    | .Error => cfg.polling.error_interval_ms
    | .Idle => cfg.polling.idle_interval_ms
    | .Done => cfg.polling.idle_interval_ms
    | .Dead => cfg.polling.idle_interval_ms

/-- The adaptive per-member poll (`tui/app.rs:608-662`): skip inside the
interval, otherwise stamp `last_polled` and run the capture update.
`Instant::duration_since` is saturating subtraction. -/
def pollMember (env : Env) (cfg : AppConfig) (dyn : DynMatcher)
    (is_focused : Bool) (m : Member) : Member :=
  let interval := pollInterval cfg is_focused m
  let should_poll :=
    match m.last_polled with
    | some last => env.nowMs - last ≥ interval
    | none => true
  if !should_poll then m
  else captureUpdateMember env cfg dyn { m with last_polled := some env.nowMs }

/-- One pod of the polling loop (`tui/app.rs:586-680`), with its index for
the focus test.  The detail-stream drain (`tui/app.rs:664-677`) only touches
the omitted detail fields. -/
def pollPod (env : Env) (cfg : AppConfig) (dyn : DynMatcher)
    (focus : Option Nat) (pair : Nat × Pod) : Pod :=
  let pod := pair.2
  if !env.sessionExists pod.tmux_session then markDead pod
  else
    let pod1 := reviveMembers env pod
    let is_focused := focus = some pair.1
    let pod2 := { pod1 with
      members := pod1.members.map (pollMember env cfg dyn is_focused) }
    pod2.applyRollup

def pollPhase (env : Env) (cfg : AppConfig) (dyn : DynMatcher)
    (focus : Option Nat) (pods : List Pod) : List Pod :=
  pods.enum.map (pollPod env cfg dyn focus)

/-- `App::selective_refresh` (`tui/app.rs:436-693`): hook-event dispatch,
dynamic reload every two seconds (`reloadDue`), then adaptive polling.  The
detail-mode exit at the end only manipulates the omitted mode state. -/
def selective_refresh (env : Env) (cfg : AppConfig) (dyn : DynMatcher)
    (hookEvents : List HookEvent) (reloadDue : Bool)
    (storeLoad : Option (List Pod)) (st : AppState) : AppState :=
  let hookPods := dispatchSubagentEvents hookEvents
    (dispatchHookStatus env hookEvents st.pods)
  let st1 :=
    if hookEvents.isEmpty then st
    else { st with pods := hookPods }
  let st2 := if reloadDue then dynamicReload env storeLoad st1 else st1
  { st2 with pods := pollPhase env cfg dyn st2.focus st2.pods }

/-! ### Concrete fixtures used by witnesses and counterexamples -/

/-- A member fixture. -/
def mkMember (role pane : String) (st : MemberStatus) (ws lc : Nat) : Member :=
  { role := role, status := st, tmux_pane := pane, last_change := lc
    last_output := "", last_polled := none, working_secs := ws, sub_agents := [] }

/-- A pod fixture. -/
def mkPod (name sess : String) (members : List Member) (group : Option String) :
    Pod :=
  { name := name, pod_type := .Solo, members := members, status := .Working
    tmux_session := sess, project := some "my-project", group := group
    created_at := 0, total_working_secs := 0 }

/-- The default configuration (`config.rs` defaults). -/
def cfg0 : AppConfig :=
  { polling := { focused_interval_ms := 1000, permission_interval_ms := 1000
                 working_interval_ms := 3000, idle_interval_ms := 10000
                 error_interval_ms := 5000 }
    detection := { permission_patterns := [], error_patterns := []
                   idle_patterns := [] }
    notification_enabled := true }

/-- A dynamic-pattern oracle with no compiled patterns. -/
def dyn0 : DynMatcher := ⟨fun _ _ => false⟩

/-! ### Theorems -/

theorem matchesAny_nil_matchers (s : List Char) : matchesAny [] s = false := rfl

/-- No built-in permission pattern matches the empty haystack. -/
theorem perm_empty_false : matchesAny PERMISSION_MATCHERS [] = false := by decide

/-- C2: `detect_member_status` follows the staged, first-match-wins
algorithm: empty trimmed output is Done; otherwise over the text of the last
fifteen lines a permission match wins, then an error match, then a done
match, then an idle match of the last line alone, defaulting to Working; in
particular an input whose tail contains both an error line and a permission
line is classified Permission. -/
theorem detect_member_status_algorithm (out : String) :
    (rustTrim out.data = [] → detect_member_status out = .Done) ∧
    (rustTrim out.data ≠ [] →
      (matchesAny PERMISSION_MATCHERS (statusTailText out) = true →
        detect_member_status out = .Permission) ∧
      (matchesAny PERMISSION_MATCHERS (statusTailText out) = false →
        matchesAny ERROR_MATCHERS (statusTailText out) = true →
        detect_member_status out = .Error) ∧
      (matchesAny PERMISSION_MATCHERS (statusTailText out) = false →
        matchesAny ERROR_MATCHERS (statusTailText out) = false →
        matchesAny DONE_MATCHERS (statusTailText out) = true →
        detect_member_status out = .Done) ∧
      (matchesAny PERMISSION_MATCHERS (statusTailText out) = false →
        matchesAny ERROR_MATCHERS (statusTailText out) = false →
        matchesAny DONE_MATCHERS (statusTailText out) = false →
        ∀ last, statusTailLast out = some last →
          IDLE_MATCHERS.any (fun m => m last) = true →
          detect_member_status out = .Idle) ∧
      (matchesAny PERMISSION_MATCHERS (statusTailText out) = false →
        matchesAny ERROR_MATCHERS (statusTailText out) = false →
        matchesAny DONE_MATCHERS (statusTailText out) = false →
        (∀ last, statusTailLast out = some last →
          IDLE_MATCHERS.any (fun m => m last) = false) →
        detect_member_status out = .Working)) ∧
    detect_member_status "Error: X\nAllow this? (y/n)" = .Permission := by
  refine ⟨?_, ?_, by decide⟩
  · intro h
    simp [detect_member_status, h]
  · intro hne
    have hE : (rustTrim out.data).isEmpty = false := by
      simpa [List.isEmpty_iff] using hne
    refine ⟨?_, ?_, ?_, ?_, ?_⟩
    · intro hp
      simp [detect_member_status, hE, statusTailText] at hp ⊢
      simp [hp]
    · intro hp he
      simp [statusTailText] at hp he
      simp [detect_member_status, hE, hp, he]
    · intro hp he hd
      simp [statusTailText] at hp he hd
      simp [detect_member_status, hE, hp, he, hd]
    · intro hp he hd last hlast hidle
      simp [statusTailText] at hp he hd
      simp [statusTailLast] at hlast
      simp [detect_member_status, hE, hp, he, hd, hlast, hidle]
    · intro hp he hd hidle
      simp [statusTailText] at hp he hd
      simp only [detect_member_status, hE, Bool.false_eq_true, if_false, hp, he, hd]
      cases hl : (tailK 15 (rustLines (rustTrim out.data))).getLast? with
      | none => simp
      | some last =>
        have := hidle last (by simpa [statusTailLast] using hl)
        simp [this]

theorem detect_member_status_algorithm_witness :
    detect_member_status "Build failed" = MemberStatus.Error :=
  ((detect_member_status_algorithm "Build failed").2.1 (by decide)).2.1
    (by decide) (by decide)

/-- The error condition exactly as the C3 sentence words it: a line of the
15-line tail begins with `Error:` or `error:`, or the tail contains the word
failed or panic, or matches the thread-panicked pattern. -/
def specC3ErrorCondition (out : String) : Bool :=
  let tail := tailK 15 (rustLines (rustTrim out.data))
  let tt := statusTailText out
  tail.any (fun l => (stripCS "Error:".data l).isSome ||
    (stripCS "error:".data l).isSome) ||
  scanP errP3at none tt || scanP errP4at none tt || scanP errP5at none tt

/-- C3 counterexample: `Error:` occurring mid-line after a space is at a word
boundary, so the first error pattern `(?m)^.*\bError:.*$` matches and the
output is classified Error although no line begins with `Error:`/`error:`
and none of the other error words occur. -/
theorem detect_error_midline_counterexample :
    detect_member_status "foo Error: bar" = .Error ∧
    specC3ErrorCondition "foo Error: bar" = false := by decide

/-- C3 amended: when the permission patterns do not match, the output is
classified Error exactly when the tail contains `Error:` or `error:`
preceded by a word boundary (start of line or a non-word character), or the
word failed, or the word panic, or the thread-panicked pattern. -/
theorem detect_error_characterization (out : String)
    (hperm : matchesAny PERMISSION_MATCHERS (statusTailText out) = false) :
    detect_member_status out = .Error ↔
      (scanP errP1at none (statusTailText out) = true ∨
       scanP errP2at none (statusTailText out) = true ∨
       scanP errP3at none (statusTailText out) = true ∨
       scanP errP4at none (statusTailText out) = true ∨
       scanP errP5at none (statusTailText out) = true) := by
  have herr : matchesAny ERROR_MATCHERS (statusTailText out) = true ↔
      (scanP errP1at none (statusTailText out) = true ∨
       scanP errP2at none (statusTailText out) = true ∨
       scanP errP3at none (statusTailText out) = true ∨
       scanP errP4at none (statusTailText out) = true ∨
       scanP errP5at none (statusTailText out) = true) := by
    simp [matchesAny, ERROR_MATCHERS, or_assoc]
  rw [← herr]
  constructor
  · intro h
    by_contra hne
    have he : matchesAny ERROR_MATCHERS (statusTailText out) = false := by
      cases hb : matchesAny ERROR_MATCHERS (statusTailText out) with
      | false => rfl
      | true => exact absurd hb hne
    by_cases htr : rustTrim out.data = []
    · have := (detect_member_status_algorithm out).1 htr
      rw [this] at h
      cases h
    · have hE : (rustTrim out.data).isEmpty = false := by
        simpa [List.isEmpty_iff] using htr
      simp [statusTailText] at hperm he
      simp only [detect_member_status, hE, Bool.false_eq_true, if_false,
        hperm, he] at h
      revert h
      split
      · intro h; cases h
      · split
        · split
          · intro h; cases h
          · intro h; cases h
        · intro h; cases h
  · intro h
    by_cases htr : rustTrim out.data = []
    · have hst : statusTailText out = [] := by
        simp [statusTailText, htr, tailK, rustLines, intercalateNl]
      rw [hst] at h
      exact absurd h (by decide)
    · exact ((detect_member_status_algorithm out).2.1 htr).2.1 hperm h

theorem detect_error_characterization_witness :
    detect_member_status "Build failed now" = MemberStatus.Error :=
  (detect_error_characterization "Build failed now" (by decide)).mpr (by decide)

/-- C7: `poll_events` on an absent file returns nothing and keeps the
cursor; on a present file it returns the records parsed from the bytes
between the cursor and the end of file in order (from byte zero when the
file shrank below the cursor), skipping malformed lines, and leaves the
cursor at the file length, so an immediate second call returns nothing. -/
theorem poll_events_spec (parse : String → Option HookEvent)
    (content : List Char) (cursor : Nat) :
    poll_events parse none cursor = ([], cursor) ∧
    (poll_events parse (some content) cursor).2 = content.length ∧
    (poll_events parse (some content) cursor).1 =
      (splitLinesKeep (content.drop
        (if content.length < cursor then 0 else cursor))).filterMap
        (fun l => parse (String.mk (rustTrim l))) ∧
    poll_events parse (some content)
      (poll_events parse (some content) cursor).2 = ([], content.length) := by
  refine ⟨rfl, ?_, rfl, ?_⟩
  · simp only [poll_events, List.length_drop]
    split <;> omega
  · have h2 : (poll_events parse (some content) cursor).2 = content.length := by
      simp only [poll_events, List.length_drop]
      split <;> omega
    rw [h2]
    simp [poll_events, List.drop_length, splitLinesKeep]

/-- A failed invocation whose stderr reports that no server is running. -/
def cmdNoServer : CmdOutput :=
  { success := false, stdout := "", stderr := "no server running" }

/-- C8 counterexample: on a no-server failure, `list_sessions` returns an
empty list but `list_panes(session)` returns an error, not an empty list. -/
theorem list_panes_no_server_counterexample :
    list_sessions cmdNoServer = .ok [] ∧
    list_all_panes cmdNoServer = .ok [] ∧
    (∃ e, list_panes "s" cmdNoServer = .error e) ∧
    ∀ l, list_panes "s" cmdNoServer ≠ .ok l := by
  refine ⟨rfl, rfl, ⟨_, rfl⟩, ?_⟩
  intro l h
  simp [list_panes, cmdNoServer] at h

/-- C8 amended: `list_sessions` and `list_all_panes` turn a no-server
failure into an empty result and surface every other failure as a typed
error; `list_panes(session)` surfaces every failure, the no-server case
included; successful invocations parse stdout. -/
theorem list_ops_failure_behavior (session : String) (out : CmdOutput) :
    (out.success = false → noServerStderr out.stderr = true →
      list_sessions out = .ok [] ∧ list_all_panes out = .ok [] ∧
      ∃ e, list_panes session out = .error e) ∧
    (out.success = false → noServerStderr out.stderr = false →
      (∃ e, list_sessions out = .error e) ∧
      (∃ e, list_all_panes out = .error e) ∧
      (∃ e, list_panes session out = .error e)) ∧
    (out.success = true →
      list_sessions out = .ok (parseSessionLines out.stdout) ∧
      list_panes session out = .ok (parse_panes out.stdout) ∧
      list_all_panes out = .ok (parse_panes out.stdout)) := by
  have hpanes : out.success = false →
      list_panes session out = .error
        ("tmux list-panes failed for session " ++ String.mk [squote] ++
          session ++ String.mk [squote] ++ ": " ++
          String.mk (rustTrim out.stderr.data)) := by
    intro hs
    simp only [list_panes, hs, Bool.not_false, if_true]
  refine ⟨?_, ?_, ?_⟩
  · intro hs hn
    exact ⟨by simp [list_sessions, hs, hn], by simp [list_all_panes, hs, hn],
      ⟨_, hpanes hs⟩⟩
  · intro hs hn
    refine ⟨⟨"tmux list-sessions failed: " ++ String.mk (rustTrim out.stderr.data), ?_⟩,
      ⟨"tmux list-panes -a failed: " ++ String.mk (rustTrim out.stderr.data), ?_⟩,
      ⟨_, hpanes hs⟩⟩
    · simp only [list_sessions, hs, Bool.not_false, if_true, hn,
        Bool.false_eq_true, if_false]
    · simp only [list_all_panes, hs, Bool.not_false, if_true, hn,
        Bool.false_eq_true, if_false]
  · intro hs
    exact ⟨by simp [list_sessions, hs], by simp [list_panes, hs],
      by simp [list_all_panes, hs]⟩

theorem list_ops_failure_behavior_witness :
    list_sessions cmdNoServer = .ok [] ∧
    ∃ e, list_panes "work" cmdNoServer = .error e :=
  ⟨((list_ops_failure_behavior "work" cmdNoServer).1 rfl (by decide)).1,
   ((list_ops_failure_behavior "work" cmdNoServer).1 rfl (by decide)).2.2⟩

/-- C6: `create_child_pods` with no candidates returns no children and
leaves the parent untouched; with candidates it sets the parent's group to
its own name when unset (and otherwise leaves the parent unchanged) and
returns one Solo child per candidate named `parent/role`, sharing the
parent's session and project, carrying the parent's prior group (or its
name), status Idle and exactly that candidate as its member. -/
theorem create_child_pods_spec (env : Env) (parent : Pod) (m : Member)
    (ms : List Member) :
    create_child_pods env parent [] = (parent, []) ∧
    (create_child_pods env parent (m :: ms)).1.group =
      some (parent.group.getD parent.name) ∧
    (parent.group = none →
      (create_child_pods env parent (m :: ms)).1 =
        { parent with group := some parent.name }) ∧
    (∀ g0, parent.group = some g0 →
      (create_child_pods env parent (m :: ms)).1 = parent) ∧
    (create_child_pods env parent (m :: ms)).2.map (fun c =>
      (c.name, c.tmux_session, c.project, c.group, c.pod_type, c.status,
        c.members)) =
      (m :: ms).map (fun mem =>
        (parent.name ++ "/" ++ mem.role, parent.tmux_session, parent.project,
         some (parent.group.getD parent.name), PodType.Solo, PodStatus.Idle,
         [mem])) := by
  refine ⟨by simp [create_child_pods], ?_, ?_, ?_, ?_⟩
  · cases hg : parent.group <;>
      simp [create_child_pods, hg, Option.getD]
  · intro hg
    simp [create_child_pods, hg]
  · intro g0 hg
    simp [create_child_pods, hg]
  · cases hg : parent.group <;>
      simp [create_child_pods, hg, Option.getD]

def env0c6 : Env :=
  { sessionExists := fun _ => true, listPanes := fun _ => none
    capturePane := fun _ => none, nowSec := 0, nowMs := 0 }

def parent0c6 : Pod := mkPod "auth" "s" [] none

def child0c6 : Member := mkMember "worker" "%1" .Working 0 0

theorem create_child_pods_spec_witness :
    (create_child_pods env0c6 parent0c6 [child0c6]).1 =
      { parent0c6 with group := some "auth" } ∧
    (create_child_pods env0c6 parent0c6 [child0c6]).2.map (fun c =>
      (c.name, c.tmux_session, c.project, c.group, c.pod_type, c.status,
        c.members)) =
      [("auth/worker", "s", some "my-project", some "auth", PodType.Solo,
        PodStatus.Idle, [child0c6])] := by
  have h := create_child_pods_spec env0c6 parent0c6 child0c6 []
  exact ⟨h.2.2.1 rfl, by rw [h.2.2.2.2]; rfl⟩

theorem orphanKeep_iff (pods : List Pod) (p : Pod) :
    orphanKeep (parentNames pods) p = true ↔
      (p.members ≠ [] ∨ p.group = none ∨ p.group = some p.name ∨
        p.name ∈ parentNames pods) := by
  unfold orphanKeep
  cases hm : p.members with
  | cons a l => simp [hm]
  | nil =>
    cases hg : p.group with
    | none => simp [hm, hg]
    | some g =>
      by_cases h1 : p.name = g
      · simp [hm, hg, h1, List.elem_iff]
      · have h1' : ¬(g = p.name) := fun he => h1 he.symm
        by_cases h2 : p.name ∈ parentNames pods
        · simp [hm, hg, h1, h2, List.elem_iff]
        · simp [hm, hg, h1, h1', h2, List.elem_iff]

/-- C4 amended: `remove_orphan_child_pods` preserves the relative order and
keeps exactly the Pods that have members, or have no group, or are a group
root (their name equals their group, or equals the name of some group root
in the roster); a member-less grouped non-root Pod is removed whether or not
its group still has other Pods. -/
theorem remove_orphan_child_pods_spec (pods : List Pod) :
    (remove_orphan_child_pods pods).Sublist pods ∧
    ∀ p, p ∈ remove_orphan_child_pods pods ↔
      (p ∈ pods ∧ (p.members ≠ [] ∨ p.group = none ∨ p.group = some p.name ∨
        p.name ∈ parentNames pods)) := by
  refine ⟨List.filter_sublist _, fun p => ?_⟩
  rw [remove_orphan_child_pods, List.mem_filter, orphanKeep_iff]

/-- A member-less child pod whose group has no other pod. -/
def c4orphan : Pod := mkPod "auth/w" "s" [] (some "auth")

/-- C4 counterexample: the sole member of its group, member-less and not a
group root, is removed even though its group has no other Pod in the roster,
where the claim requires at least one other Pod for removal. -/
theorem remove_orphan_sole_child_counterexample :
    remove_orphan_child_pods [c4orphan] = [] ∧
    ([c4orphan].filter (fun q => q.group = c4orphan.group)).length = 1 ∧
    c4orphan.members = [] ∧ c4orphan.group = some "auth" ∧
    c4orphan.name ≠ "auth" := by decide

/-- The pane filter realised by the discovery loop: live, not yet owned, and
capturing assistant-like output. -/
def discoverPred (env : Env) (known : List String) (pid : String) : Bool :=
  !known.contains pid &&
  (match env.capturePane pid with
   | some o => is_claude_code_pane o
   | none => false)

theorem discoverGo_map_pane (env : Env) (pod : Pod) (known : List String) :
    ∀ (panes : List String) (acc : List Member),
      (discoverGo env pod known panes acc).map (fun m => m.tmux_pane) =
        acc.map (fun m => m.tmux_pane) ++ panes.filter (discoverPred env known)
  | [], acc => by simp [discoverGo]
  | pid :: rest, acc => by
    unfold discoverGo
    split
    next hk =>
      have hd : discoverPred env known pid = false := by
        simp only [discoverPred, hk, Bool.not_true, Bool.false_and]
      rw [discoverGo_map_pane env pod known rest acc, List.filter_cons,
        if_neg (by simp [hd])]
    next hk =>
      have hk' : known.contains pid = false := by
        cases h : known.contains pid with
        | false => rfl
        | true => exact absurd h hk
      split
      next hc =>
        have hd : discoverPred env known pid = false := by
          simp only [discoverPred, hk', Bool.not_false, Bool.true_and, hc]
        rw [discoverGo_map_pane env pod known rest acc, List.filter_cons,
          if_neg (by simp [hd])]
      next o hc =>
        have hd : discoverPred env known pid = is_claude_code_pane o := by
          simp only [discoverPred, hk', Bool.not_false, Bool.true_and, hc]
        split
        next hcl =>
          have hcl' : is_claude_code_pane o = false := by
            simpa using hcl
          rw [discoverGo_map_pane env pod known rest acc, List.filter_cons,
            if_neg (by simp [hd, hcl'])]
        next hcl =>
          have hcl' : is_claude_code_pane o = true := by
            simpa using hcl
          rw [discoverGo_map_pane env pod known rest
            (acc ++ [newDiscoveredMember env
              (detect_role_name o (acc.length + pod.members.length)) pid o]),
            List.filter_cons, if_pos (by simp [hd, hcl'])]
          simp [newDiscoveredMember]

theorem discoverGo_mem (env : Env) (pod : Pod) (known : List String) :
    ∀ (panes : List String) (acc : List Member),
      ∀ m ∈ discoverGo env pod known panes acc, m ∈ acc ∨
        (known.contains m.tmux_pane = false ∧
         ∃ o k, env.capturePane m.tmux_pane = some o ∧
           is_claude_code_pane o = true ∧ m.role = detect_role_name o k ∧
           m.status = .Working ∧ m.working_secs = 0)
  | [], acc => fun m hm => Or.inl (by simpa [discoverGo] using hm)
  | pid :: rest, acc => by
    intro m hm
    unfold discoverGo at hm
    split at hm
    next => exact discoverGo_mem env pod known rest acc m hm
    next hk =>
      have hk' : known.contains pid = false := by
        cases h : known.contains pid with
        | false => rfl
        | true => exact absurd h hk
      split at hm
      next => exact discoverGo_mem env pod known rest acc m hm
      next o hc =>
        split at hm
        next => exact discoverGo_mem env pod known rest acc m hm
        next hcl =>
          have hcl' : is_claude_code_pane o = true := by
            simpa using hcl
          rcases discoverGo_mem env pod known rest _ m hm with h | h
          · rcases List.mem_append.mp h with h1 | h1
            · exact Or.inl h1
            · right
              have hmm : m = newDiscoveredMember env
                  (detect_role_name o (acc.length + pod.members.length)) pid o := by
                simpa using h1
              subst hmm
              exact ⟨hk', o, acc.length + pod.members.length, hc, hcl', rfl, rfl, rfl⟩
          · exact Or.inr h

/-- C5: `discover_new_members` never returns a pane already owned by a pod
sharing the session; it returns exactly one candidate per remaining live
pane whose captured output passes the assistant heuristic, in pane order,
each with role computed by `detect_role_name` on that output and born
Working with zero working time. -/
theorem discover_new_members_spec (env : Env) (pod : Pod)
    (all_pods : List Pod) (panes : List String)
    (h : env.listPanes pod.tmux_session = some panes) :
    (∀ m ∈ discover_new_members env pod all_pods,
      (knownPanes pod all_pods).contains m.tmux_pane = false) ∧
    (discover_new_members env pod all_pods).map (fun m => m.tmux_pane) =
      panes.filter (discoverPred env (knownPanes pod all_pods)) ∧
    (∀ m ∈ discover_new_members env pod all_pods,
      ∃ o k, env.capturePane m.tmux_pane = some o ∧
        is_claude_code_pane o = true ∧ m.role = detect_role_name o k ∧
        m.status = .Working ∧ m.working_secs = 0) := by
  have hd : discover_new_members env pod all_pods =
      discoverGo env pod (knownPanes pod all_pods) panes [] := by
    rw [discover_new_members, h]
  refine ⟨?_, ?_, ?_⟩
  · intro m hm
    rw [hd] at hm
    rcases discoverGo_mem env pod _ panes [] m hm with h1 | h1
    · cases h1
    · exact h1.1
  · rw [hd, discoverGo_map_pane]
    simp
  · intro m hm
    rw [hd] at hm
    rcases discoverGo_mem env pod _ panes [] m hm with h1 | h1
    · cases h1
    · exact h1.2

/-- Fixture for the spec's shared-session discovery scenario. -/
def envC5 : Env :=
  { sessionExists := fun s => s = "s"
    listPanes := fun s => if s = "s" then some ["%0", "%1", "%2"] else none
    capturePane := fun p =>
      if p = "%2" then some "@worker\nclaude is here" else some "plain shell"
    nowSec := 50, nowMs := 5000 }

def podC5P : Pod := mkPod "P" "s" [mkMember "lead" "%0" .Working 0 0] none

def podC5Q : Pod := mkPod "Q" "s" [mkMember "m" "%1" .Working 0 0] none

theorem discover_new_members_spec_witness :
    (∀ m ∈ discover_new_members envC5 podC5P [podC5P, podC5Q],
      (knownPanes podC5P [podC5P, podC5Q]).contains m.tmux_pane = false) ∧
    (discover_new_members envC5 podC5P [podC5P, podC5Q]).map
      (fun m => m.tmux_pane) =
      ["%0", "%1", "%2"].filter
        (discoverPred envC5 (knownPanes podC5P [podC5P, podC5Q])) := by
  have h := discover_new_members_spec envC5 podC5P [podC5P, podC5Q]
    ["%0", "%1", "%2"] rfl
  exact ⟨h.1, h.2.1⟩

/-! ### Tail monotonicity of the permission patterns (for C10)

The 15-line tail is a suffix of the 20-line tail, separated from the added
lines by a newline; every permission matcher treats the start of the
haystack and a preceding newline alike, so a permission match on the shorter
tail survives on the longer one. -/

theorem scanP_congr_newline (p : Option Char → List Char → Bool)
    (hp : ∀ s, p none s = p (some '\n') s) (s : List Char) :
    scanP p none s = scanP p (some '\n') s := by
  cases s with
  | nil => exact hp []
  | cons c cs => simp [scanP, hp (c :: cs)]

theorem scanP_append_newline (p : Option Char → List Char → Bool)
    (hp : ∀ s, p none s = p (some '\n') s) (pre : List Char)
    (prev : Option Char) (s : List Char) (h : scanP p none s = true) :
    scanP p prev (pre ++ '\n' :: s) = true := by
  induction pre generalizing prev with
  | nil =>
    rw [List.nil_append, scanP, Bool.or_eq_true]
    exact Or.inr ((scanP_congr_newline p hp s) ▸ h)
  | cons c cs ih =>
    rw [List.cons_append, scanP, Bool.or_eq_true]
    exact Or.inr (ih (some c))

theorem permP1at_nl (s : List Char) : permP1at none s = permP1at (some '\n') s := rfl

theorem permP2at_nl (s : List Char) : permP2at none s = permP2at (some '\n') s := rfl

theorem permP3at_nl (s : List Char) : permP3at none s = permP3at (some '\n') s := by
  simp [permP3at, isWordOpt, show isWordChar '\n' = false from by decide]

theorem permP4at_nl (s : List Char) : permP4at none s = permP4at (some '\n') s := rfl

theorem permP5at_nl (s : List Char) : permP5at none s = permP5at (some '\n') s := rfl

theorem permP6at_nl (s : List Char) : permP6at none s = permP6at (some '\n') s := rfl

theorem permAny_cons (a : List Char) (tl : List (List Char))
    (h : matchesAny PERMISSION_MATCHERS (intercalateNl tl) = true) :
    matchesAny PERMISSION_MATCHERS (intercalateNl (a :: tl)) = true := by
  cases tl with
  | nil => exact absurd h (by rw [show intercalateNl [] = [] from rfl]; decide)
  | cons b tl2 =>
    rw [show intercalateNl (a :: b :: tl2) = a ++ '\n' :: intercalateNl (b :: tl2)
      from rfl]
    simp only [matchesAny, PERMISSION_MATCHERS, List.any_cons, List.any_nil,
      Bool.or_eq_true, Bool.or_false] at h ⊢
    rcases h with h | h | h | h | h | h
    · exact Or.inl (scanP_append_newline _ permP1at_nl a none _ h)
    · exact Or.inr (Or.inl (scanP_append_newline _ permP2at_nl a none _ h))
    · exact Or.inr (Or.inr (Or.inl (scanP_append_newline _ permP3at_nl a none _ h)))
    · exact Or.inr (Or.inr (Or.inr (Or.inl
        (scanP_append_newline _ permP4at_nl a none _ h))))
    · exact Or.inr (Or.inr (Or.inr (Or.inr (Or.inl
        (scanP_append_newline _ permP5at_nl a none _ h)))))
    · exact Or.inr (Or.inr (Or.inr (Or.inr (Or.inr
        (scanP_append_newline _ permP6at_nl a none _ h)))))

theorem permAny_drop (ls : List (List Char)) (k : Nat)
    (h : matchesAny PERMISSION_MATCHERS (intercalateNl (ls.drop k)) = true) :
    matchesAny PERMISSION_MATCHERS (intercalateNl ls) = true := by
  induction k generalizing ls with
  | zero => simpa using h
  | succ k ih =>
    cases ls with
    | nil => exact absurd h (by rw [List.drop_nil,
        show intercalateNl [] = [] from rfl]; decide)
    | cons a tl => exact permAny_cons a tl (ih tl (by simpa using h))

theorem tailK_drop (k : Nat) (ls : List (List Char)) :
    tailK k ls = ls.drop (ls.length - k) := by
  unfold tailK
  split
  · rfl
  · next hgt =>
    have h0 : ls.length - k = 0 := by omega
    rw [h0, List.drop_zero]

theorem tail15_of_tail20 (ls : List (List Char)) :
    ∃ j, tailK 15 ls = (tailK 20 ls).drop j := by
  refine ⟨(ls.length - 15) - (ls.length - 20), ?_⟩
  rw [tailK_drop, tailK_drop, List.drop_drop]
  congr 1
  omega

/-- C10: whenever status detection with no user patterns reports Permission,
the 20-line tail examined by `parse_permission_request` also matches a
permission pattern (the 15-line tail is a newline-separated suffix of it),
the parse returns a request, and its detail field is the non-empty 20-line
tail text. -/
theorem permission_detect_implies_parse (dyn : DynMatcher) (out : String)
    (h : detect_member_status_with_config dyn out [] [] [] = .Permission) :
    matchesAny PERMISSION_MATCHERS (permTailText out) = true ∧
    permTailText out ≠ [] ∧
    (parse_permission_request out).isSome = true ∧
    (parse_permission_request out).map (fun r => r.detail) =
      some (String.mk (permTailText out)) ∧
    (∀ o2 : String, matchesAny PERMISSION_MATCHERS (statusTailText o2) = true →
      matchesAny PERMISSION_MATCHERS (permTailText o2) = true) := by
  have tail_mono : ∀ o2 : String,
      matchesAny PERMISSION_MATCHERS (statusTailText o2) = true →
      matchesAny PERMISSION_MATCHERS (permTailText o2) = true := by
    intro o2 h15
    obtain ⟨j, hj⟩ := tail15_of_tail20 (rustLines (rustTrim o2.data))
    have hdrop : matchesAny PERMISSION_MATCHERS (intercalateNl
        ((tailK 20 (rustLines (rustTrim o2.data))).drop j)) = true := by
      rw [← hj]
      simpa [statusTailText] using h15
    simpa [permTailText] using permAny_drop _ j hdrop
  by_cases htr : rustTrim out.data = []
  · exfalso
    simp [detect_member_status_with_config, htr] at h
  · have hE : (rustTrim out.data).isEmpty = false := by
      simpa [List.isEmpty_iff] using htr
    have h15 : matchesAny PERMISSION_MATCHERS (statusTailText out) = true := by
      cases hb : matchesAny PERMISSION_MATCHERS (statusTailText out) with
      | true => rfl
      | false =>
        exfalso
        have hb' := hb
        simp [statusTailText] at hb'
        simp only [detect_member_status_with_config, hE, Bool.false_eq_true,
          if_false, hb', matchesAnyDynamic, List.any_nil, Bool.or_false] at h
        revert h
        split
        · intro h; cases h
        · split
          · intro h; cases h
          · split
            · split
              · intro h; cases h
              · intro h; cases h
            · intro h; cases h
    have h20 : matchesAny PERMISSION_MATCHERS (permTailText out) = true :=
      tail_mono out h15
    have hne : permTailText out ≠ [] := by
      intro he
      rw [he] at h20
      exact absurd h20 (by decide)
    have h20' : matchesAny PERMISSION_MATCHERS
        (intercalateNl (tailK 20 (rustLines (rustTrim out.data)))) = true := by
      simpa [permTailText] using h20
    refine ⟨h20, hne, ?_, ?_, tail_mono⟩
    · simp [parse_permission_request, hE, h20']
    · simp [parse_permission_request, hE, h20', permTailText]

theorem permission_detect_implies_parse_witness :
    (parse_permission_request "Error: X\nAllow this? (y/n)").isSome = true :=
  (permission_detect_implies_parse dyn0 "Error: X\nAllow this? (y/n)"
    (by decide)).2.2.1

/-! ### The roll-up invariant after a refresh (C1) -/

/-- What one pass of the refresh loop establishes for a pod that was present
when the loop started: live pods are rolled up, dead-session pods are marked
Dead. -/
def refreshedOk (env : Env) (p : Pod) : Prop :=
  (env.sessionExists p.tmux_session = true → p.status = rollupOf p) ∧
  (env.sessionExists p.tmux_session = false → p.status = .Dead)

theorem markDead_session (p : Pod) : (markDead p).tmux_session = p.tmux_session := by
  unfold markDead
  split <;> rfl

theorem markDead_status (p : Pod) : (markDead p).status = .Dead := by
  unfold markDead
  split
  · rfl
  · next h => simpa using h

theorem reviveMembers_session (env : Env) (p : Pod) :
    (reviveMembers env p).tmux_session = p.tmux_session := by
  unfold reviveMembers
  split <;> rfl

theorem remove_stale_session (env : Env) (p : Pod) :
    (remove_stale_members env p).tmux_session = p.tmux_session := by
  unfold remove_stale_members
  split <;> rfl

theorem create_child_parent_session (env : Env) (p : Pod) (d : List Member) :
    ((create_child_pods env p d).1).tmux_session = p.tmux_session := by
  unfold create_child_pods
  split
  · rfl
  · dsimp only
    split <;> rfl

theorem create_child_children_status (env : Env) (p : Pod) (d : List Member) :
    ∀ c ∈ (create_child_pods env p d).2, c.status = .Idle := by
  unfold create_child_pods
  split
  · intro c hc
    cases hc
  · dsimp only
    intro c hc
    obtain ⟨mem, _, rfl⟩ := List.mem_map.mp hc
    rfl

theorem applyRollup_rollupOf (p : Pod) :
    (p.applyRollup).status = rollupOf (p.applyRollup) := by
  simp [Pod.applyRollup, rollupOf]

theorem refreshStep_length (env : Env) (cfg : AppConfig) (dyn : DynMatcher)
    (pods newPods : List Pod) (i : Nat) :
    (refreshStep env cfg dyn pods newPods i).1.length = pods.length := by
  unfold refreshStep
  split
  · rfl
  · split
    · simp
    · simp

theorem refreshStep_getElem_ne (env : Env) (cfg : AppConfig) (dyn : DynMatcher)
    (pods newPods : List Pod) (i j : Nat) (hne : j ≠ i) :
    ((refreshStep env cfg dyn pods newPods i).1)[j]? = pods[j]? := by
  unfold refreshStep
  split
  · rfl
  · split
    · exact List.getElem?_set_ne (fun he => hne he.symm)
    · rw [List.getElem?_set_ne (fun he => hne he.symm),
        List.getElem?_set_ne (fun he => hne he.symm)]

theorem refreshStep_processed (env : Env) (cfg : AppConfig) (dyn : DynMatcher)
    (pods newPods : List Pod) (i : Nat) (pod : Pod)
    (hp : pods[i]? = some pod) :
    ∃ p', ((refreshStep env cfg dyn pods newPods i).1)[i]? = some p' ∧
      refreshedOk env p' := by
  have hi : i < pods.length := by
    by_contra hge
    rw [List.getElem?_eq_none (by omega)] at hp
    cases hp
  unfold refreshStep
  rw [hp]
  dsimp only
  split
  · next hdead =>
    have hdead' : env.sessionExists pod.tmux_session = false := by
      simpa using hdead
    refine ⟨markDead pod, ?_, ?_, ?_⟩
    · exact List.getElem?_set_self (by omega)
    · intro hlive
      rw [markDead_session] at hlive
      rw [hlive] at hdead'
      cases hdead'
    · intro _
      exact markDead_status pod
  · next hlive =>
    have hlive' : env.sessionExists pod.tmux_session = true := by
      cases h : env.sessionExists pod.tmux_session with
      | true => rfl
      | false => exact absurd (by simp [h]) hlive
    set pod2 := remove_stale_members env (reviveMembers env pod) with hpod2
    set pc := create_child_pods env pod2
      (discover_new_members env pod2 (pods.set i pod2 ++ newPods)) with hpc
    set pod5 := ({ pc.1 with
      members := pc.1.members.map (captureUpdateMember env cfg dyn) } :
        Pod).applyRollup with hpod5
    have hsess : pod5.tmux_session = pod.tmux_session := by
      calc pod5.tmux_session = pc.1.tmux_session := rfl
        _ = pod2.tmux_session := by
            rw [hpc]; exact create_child_parent_session env pod2 _
        _ = pod.tmux_session := by
            rw [hpod2, remove_stale_session, reviveMembers_session]
    refine ⟨pod5, ?_, ?_, ?_⟩
    · exact List.getElem?_set_self (by simpa using hi)
    · intro _
      exact applyRollup_rollupOf _
    · intro hdead
      rw [hsess, hlive'] at hdead
      cases hdead

theorem refreshStep_children (env : Env) (cfg : AppConfig) (dyn : DynMatcher)
    (pods newPods : List Pod) (i : Nat) :
    ∀ c ∈ (refreshStep env cfg dyn pods newPods i).2,
      c ∈ newPods ∨ c.status = .Idle := by
  unfold refreshStep
  split
  · exact fun c hc => Or.inl hc
  · split
    · exact fun c hc => Or.inl hc
    · intro c hc
      rcases List.mem_append.mp hc with h | h
      · exact Or.inl h
      · exact Or.inr (create_child_children_status env _ _ c h)

theorem refreshLoop_spec (env : Env) (cfg : AppConfig) (dyn : DynMatcher) :
    ∀ (k i : Nat) (pods newPods : List Pod),
      (∀ j, j < i → ∀ p', pods[j]? = some p' → refreshedOk env p') →
      (∀ c ∈ newPods, c.status = .Idle) →
      pods.length ≤ i + k →
      (∀ p' ∈ (refreshLoop env cfg dyn k i pods newPods).1, refreshedOk env p') ∧
      (∀ c ∈ (refreshLoop env cfg dyn k i pods newPods).2, c.status = .Idle)
  | 0, i, pods, newPods => by
    intro hpre hch hcov
    refine ⟨?_, fun c hc => hch c hc⟩
    intro p' hp'
    have hp2 : p' ∈ pods := hp'
    obtain ⟨j, hget⟩ := List.mem_iff_getElem?.mp hp2
    have hj : j < pods.length := by
      by_contra hge
      rw [List.getElem?_eq_none (by omega)] at hget
      cases hget
    exact hpre j (by omega) p' hget
  | k + 1, i, pods, newPods => by
    intro hpre hch hcov
    have hlen := refreshStep_length env cfg dyn pods newPods i
    have hmain := refreshLoop_spec env cfg dyn k (i + 1)
      (refreshStep env cfg dyn pods newPods i).1
      (refreshStep env cfg dyn pods newPods i).2 ?hpre ?hch ?hcov
    case hpre =>
      intro j hj p' hget
      by_cases hji : j = i
      · subst hji
        cases hpi : pods[j]? with
        | none =>
          have hstep : (refreshStep env cfg dyn pods newPods j).1 = pods := by
            unfold refreshStep
            rw [hpi]
          rw [hstep, hpi] at hget
          cases hget
        | some pod =>
          obtain ⟨p0, hget0, hok⟩ :=
            refreshStep_processed env cfg dyn pods newPods j pod hpi
          rw [hget0] at hget
          cases hget
          exact hok
      · rw [refreshStep_getElem_ne env cfg dyn pods newPods i j hji] at hget
        exact hpre j (by omega) p' hget
    case hch =>
      intro c hc
      rcases refreshStep_children env cfg dyn pods newPods i c hc with h | h
      · exact hch c h
      · exact h
    case hcov =>
      rw [hlen]
      omega
    exact hmain

/-- C1 amended: after the per-pod loop of a refresh, every pod that was
present when the refresh started and whose session exists carries exactly
the roll-up of its members' statuses (empty list Idle, otherwise the
priority-max under Permission > Error > Working > Idle > Done > Dead), and
every present pod whose session is gone carries Dead; the child pods the
refresh creates are appended with status Idle (their first roll-up happens
on the next refresh), and every pod of the refreshed state stems from one of
those two groups. -/
theorem refresh_rollup_after (env : Env) (cfg : AppConfig) (dyn : DynMatcher)
    (pods : List Pod) :
    (∀ p' ∈ (refreshEvolve env cfg dyn pods).1,
      (env.sessionExists p'.tmux_session = true → p'.status = rollupOf p') ∧
      (env.sessionExists p'.tmux_session = false → p'.status = .Dead)) ∧
    (∀ c ∈ (refreshEvolve env cfg dyn pods).2, c.status = .Idle) ∧
    (∀ st : AppState, st.pods = pods →
      ∀ q ∈ (refresh_pod_states env cfg dyn st).1.pods,
        q ∈ (refreshEvolve env cfg dyn pods).1 ∨
        q ∈ (refreshEvolve env cfg dyn pods).2) := by
  have hloop := refreshLoop_spec env cfg dyn pods.length 0 pods []
    (fun j hj => absurd hj (by omega)) (fun c hc => absurd hc (List.not_mem_nil c))
    (by omega)
  refine ⟨hloop.1, hloop.2, ?_⟩
  intro st hst q hq
  subst hst
  unfold refresh_pod_states at hq
  dsimp only at hq
  have hq2 := (List.mem_filter.mp hq).1
  revert hq2
  split
  · intro hq2
    exact Or.inl hq2
  · intro hq2
    rcases List.mem_append.mp hq2 with h | h
    · exact Or.inl h
    · exact Or.inr h

/-- Fixture for the C1 counterexample: one member-less pod whose session
contains a fresh assistant pane. -/
def envC1 : Env :=
  { sessionExists := fun _ => true
    listPanes := fun s => if s = "s" then some ["%1"] else none
    capturePane := fun p => if p = "%1" then some "claude" else none
    nowSec := 7, nowMs := 700 }

def podC1 : Pod := mkPod "a" "s" [] none

def stC1 : AppState :=
  { pods := [podC1], focus := none, current_permission := none
    previous_permission_pods := [] }

/-- C1 counterexample: after the refresh, the freshly created child pod has
status Idle while the roll-up of its members (one Working member) is
Working, so the claimed invariant fails for it. -/
theorem refresh_rollup_counterexample :
    ((refresh_pod_states envC1 cfg0 dyn0 stC1).1.pods.map (fun p =>
      (p.name, p.status, rollupOf p))) =
      [("a", PodStatus.Idle, PodStatus.Idle),
       ("a/member-0", PodStatus.Idle, PodStatus.Working)] := by decide

theorem refresh_rollup_after_witness :
    ({ podC1 with group := some "a", status := PodStatus.Idle } : Pod).status =
      rollupOf { podC1 with group := some "a", status := PodStatus.Idle } :=
  ((refresh_rollup_after envC1 cfg0 dyn0 [podC1]).1 _ (by decide)).1 rfl

/-! ### Working-time monotonicity (C9) -/

/-- A member evolved without losing accumulated working time: same pane,
working seconds not decreased. -/
def wsMono (m m' : Member) : Prop :=
  m.tmux_pane = m'.tmux_pane ∧ m.working_secs ≤ m'.working_secs

/-- A pod evolved memberwise without losing working time. -/
def podWsMono (p p' : Pod) : Prop :=
  p.name = p'.name ∧ List.Forall₂ wsMono p.members p'.members

theorem wsMono_refl (m : Member) : wsMono m m := ⟨rfl, Nat.le_refl _⟩

theorem wsMono_trans {a b c : Member} (h1 : wsMono a b) (h2 : wsMono b c) :
    wsMono a c :=
  ⟨h1.1.trans h2.1, h1.2.trans h2.2⟩

theorem forall2_map_self {α : Type} {R : α → α → Prop} (f : α → α)
    (h : ∀ a, R a (f a)) : ∀ l : List α, List.Forall₂ R l (l.map f)
  | [] => List.Forall₂.nil
  | a :: l => List.Forall₂.cons (h a) (forall2_map_self f h l)

theorem forall2_refl_of {α : Type} {R : α → α → Prop} (h : ∀ a, R a a) :
    ∀ l : List α, List.Forall₂ R l l
  | [] => List.Forall₂.nil
  | a :: l => List.Forall₂.cons (h a) (forall2_refl_of h l)

theorem forall2_wsMono_trans :
    ∀ {l1 l2 l3 : List Member}, List.Forall₂ wsMono l1 l2 →
      List.Forall₂ wsMono l2 l3 → List.Forall₂ wsMono l1 l3 := by
  intro l1 l2 l3 h12 h23
  induction h12 generalizing l3 with
  | nil => cases h23; exact .nil
  | cons hab h12a ih =>
    cases h23 with
    | cons hbc h23a => exact .cons (wsMono_trans hab hbc) (ih h23a)

theorem podWsMono_refl (p : Pod) : podWsMono p p :=
  ⟨rfl, forall2_refl_of wsMono_refl p.members⟩

theorem podWsMono_trans {a b c : Pod} (h1 : podWsMono a b) (h2 : podWsMono b c) :
    podWsMono a c :=
  ⟨h1.1.trans h2.1, forall2_wsMono_trans h1.2 h2.2⟩

theorem forall2_podWsMono_trans :
    ∀ {l1 l2 l3 : List Pod}, List.Forall₂ podWsMono l1 l2 →
      List.Forall₂ podWsMono l2 l3 → List.Forall₂ podWsMono l1 l3 := by
  intro l1 l2 l3 h12 h23
  induction h12 generalizing l3 with
  | nil => cases h23; exact .nil
  | cons hab h12a ih =>
    cases h23 with
    | cons hbc h23a => exact .cons (podWsMono_trans hab hbc) (ih h23a)

theorem podWsMono_members_map (p : Pod) (f : Member → Member)
    (h : ∀ m, wsMono m (f m)) :
    podWsMono p { p with members := p.members.map f } :=
  ⟨rfl, forall2_map_self f h p.members⟩

theorem creditTransition_pane (now : Nat) (s : MemberStatus) (m : Member) :
    (creditTransition now s m).tmux_pane = m.tmux_pane := by
  unfold creditTransition
  split <;> rfl

theorem creditTransition_mono (now : Nat) (s : MemberStatus) (m : Member) :
    m.working_secs ≤ (creditTransition now s m).working_secs := by
  unfold creditTransition
  split
  · dsimp only
    split
    · omega
    · exact Nat.le_refl _
  · exact Nat.le_refl _

/-- C9's crediting rule holds for the shared transition snippet: leaving
Working adds the elapsed seconds since the last status change. -/
theorem creditTransition_credit (now : Nat) (s : MemberStatus) (m : Member)
    (hw : m.status = .Working) (hs : s ≠ .Working) :
    (creditTransition now s m).working_secs =
      m.working_secs + (now - m.last_change) := by
  unfold creditTransition
  rw [if_pos (fun he => hs (by rw [he, hw]))]
  dsimp only
  rw [if_pos hw]

theorem wsMono_credit (now : Nat) (s : MemberStatus) (m : Member) :
    wsMono m (creditTransition now s m) :=
  ⟨(creditTransition_pane now s m).symm, creditTransition_mono now s m⟩

theorem wsMono_hookApply (env : Env) (s : MemberStatus) (m : Member) :
    wsMono m (hookApplyMember env s m) :=
  wsMono_trans (wsMono_credit env.nowSec s m) ⟨rfl, Nat.le_refl _⟩

theorem wsMono_subagent (e : HookEvent) (m : Member) :
    wsMono m (applySubagentEvent e m) := by
  unfold applySubagentEvent
  split
  · dsimp only
    split
    · exact wsMono_refl m
    · exact ⟨rfl, Nat.le_refl _⟩
  · exact ⟨rfl, Nat.le_refl _⟩
  · exact wsMono_refl m

theorem wsMono_captureUpdate (env : Env) (cfg : AppConfig) (dyn : DynMatcher)
    (m : Member) : wsMono m (captureUpdateMember env cfg dyn m) := by
  unfold captureUpdateMember
  split
  · exact wsMono_refl m
  · exact wsMono_trans (wsMono_credit env.nowSec _ m) ⟨rfl, Nat.le_refl _⟩

theorem wsMono_pollMember (env : Env) (cfg : AppConfig) (dyn : DynMatcher)
    (f : Bool) (m : Member) : wsMono m (pollMember env cfg dyn f m) := by
  unfold pollMember
  dsimp only
  split
  · exact wsMono_refl m
  · exact wsMono_trans (⟨rfl, Nat.le_refl _⟩ :
      wsMono m { m with last_polled := some env.nowMs })
      (wsMono_captureUpdate env cfg dyn _)

theorem podWsMono_markDead (p : Pod) : podWsMono p (markDead p) := by
  unfold markDead
  split
  · exact podWsMono_members_map p _ (fun m => ⟨rfl, Nat.le_refl _⟩)
  · exact podWsMono_refl p

theorem podWsMono_revive (env : Env) (p : Pod) :
    podWsMono p (reviveMembers env p) := by
  unfold reviveMembers
  split
  · refine podWsMono_members_map p _ (fun m => ?_)
    split
    · exact ⟨rfl, Nat.le_refl _⟩
    · exact wsMono_refl m
  · exact podWsMono_refl p

theorem podWsMono_pollPod (env : Env) (cfg : AppConfig) (dyn : DynMatcher)
    (focus : Option Nat) (i : Nat) (p : Pod) :
    podWsMono p (pollPod env cfg dyn focus (i, p)) := by
  unfold pollPod
  dsimp only
  split
  · exact podWsMono_markDead p
  · have h1 := podWsMono_revive env p
    have h2 := podWsMono_members_map (reviveMembers env p)
      (pollMember env cfg dyn (decide (focus = some i)))
      (wsMono_pollMember env cfg dyn (decide (focus = some i)))
    have h3 : podWsMono
        ({ reviveMembers env p with
           members := (reviveMembers env p).members.map
             (pollMember env cfg dyn (decide (focus = some i))) } : Pod)
        (({ reviveMembers env p with
           members := (reviveMembers env p).members.map
             (pollMember env cfg dyn (decide (focus = some i))) } : Pod).applyRollup) :=
      ⟨rfl, forall2_refl_of wsMono_refl _⟩
    exact podWsMono_trans h1 (podWsMono_trans h2 h3)

theorem forall2_enumFrom_map (env : Env) (cfg : AppConfig) (dyn : DynMatcher)
    (focus : Option Nat) :
    ∀ (n : Nat) (l : List Pod), List.Forall₂ podWsMono l
      ((l.enumFrom n).map (pollPod env cfg dyn focus))
  | _, [] => List.Forall₂.nil
  | n, a :: l =>
    List.Forall₂.cons (podWsMono_pollPod env cfg dyn focus n a)
      (forall2_enumFrom_map env cfg dyn focus (n + 1) l)

theorem pollPhase_mono (env : Env) (cfg : AppConfig) (dyn : DynMatcher)
    (focus : Option Nat) (pods : List Pod) :
    List.Forall₂ podWsMono pods (pollPhase env cfg dyn focus pods) :=
  forall2_enumFrom_map env cfg dyn focus 0 pods

theorem dispatchHookStatus_mono (env : Env) (events : List HookEvent)
    (pods : List Pod) :
    List.Forall₂ podWsMono pods (dispatchHookStatus env events pods) := by
  unfold dispatchHookStatus
  split
  · exact forall2_refl_of podWsMono_refl pods
  · split
    · exact forall2_refl_of podWsMono_refl pods
    · refine forall2_map_self _ (fun pod => ?_) pods
      split
      · exact podWsMono_members_map pod _ (wsMono_hookApply env _)
      · exact podWsMono_refl pod

theorem dispatchSubagentEvents_mono (events : List HookEvent) :
    ∀ pods : List Pod,
      List.Forall₂ podWsMono pods (dispatchSubagentEvents events pods) := by
  induction events with
  | nil => exact fun pods => forall2_refl_of podWsMono_refl pods
  | cons e rest ih =>
    intro pods
    have hstep : List.Forall₂ podWsMono pods
        (if !e.is_subagent_event then pods
         else pods.map (fun pod =>
           if sessionMatches e.session pod then
             { pod with members := pod.members.map (applySubagentEvent e) }
           else pod)) := by
      split
      · exact forall2_refl_of podWsMono_refl pods
      · refine forall2_map_self _ (fun pod => ?_) pods
        split
        · exact podWsMono_members_map pod _ (wsMono_subagent e)
        · exact podWsMono_refl pod
    exact forall2_podWsMono_trans hstep (ih _)

/-- C9 amended: on a tick without a store reload, `selective_refresh`
(hook-event dispatch followed by adaptive polling) evolves every pod
memberwise, keeping each member's pane and never decreasing its
`working_secs`; the shared transition snippet credits the elapsed seconds
exactly when the member leaves Working for a different status.  (The
dead-session marking bypasses this snippet — see the counterexample.) -/
theorem working_secs_monotone (env : Env) (cfg : AppConfig) (dyn : DynMatcher)
    (hooks : List HookEvent) (st : AppState) :
    List.Forall₂ podWsMono st.pods
      (selective_refresh env cfg dyn hooks false none st).pods ∧
    (∀ now s m, m.working_secs ≤ (creditTransition now s m).working_secs) ∧
    (∀ now s m, m.status = .Working → s ≠ .Working →
      (creditTransition now s m).working_secs =
        m.working_secs + (now - m.last_change)) := by
  refine ⟨?_, creditTransition_mono, creditTransition_credit⟩
  unfold selective_refresh
  dsimp only
  rw [if_neg (by simp)]
  split
  · exact pollPhase_mono env cfg dyn st.focus st.pods
  · refine forall2_podWsMono_trans ?_
      (pollPhase_mono env cfg dyn st.focus _)
    exact forall2_podWsMono_trans
      (dispatchHookStatus_mono env hooks st.pods)
      (dispatchSubagentEvents_mono hooks _)

/-- Fixture for the C9 counterexample: a Working member whose session has
died, one hundred seconds after its last status change. -/
def envC9 : Env :=
  { sessionExists := fun _ => false, listPanes := fun _ => none
    capturePane := fun _ => none, nowSec := 100, nowMs := 10000 }

def podC9 : Pod := mkPod "w" "s" [mkMember "claude" "%9" .Working 0 0] none

def stC9 : AppState :=
  { pods := [podC9], focus := none, current_permission := none
    previous_permission_pods := [] }

/-- C9 counterexample: dead-session marking moves the member from Working to
Dead without adding the elapsed hundred seconds to `working_secs`, where the
claim demands crediting on every transition out of Working. -/
theorem working_secs_dead_counterexample :
    ((selective_refresh envC9 cfg0 dyn0 [] false none stC9).pods.map (fun p =>
      (p.status, p.members.map (fun m => (m.status, m.working_secs))))) =
      [(PodStatus.Dead, [(MemberStatus.Dead, 0)])] ∧
    (stC9.pods.map (fun p => p.members.map (fun m =>
      (m.status, m.last_change, m.working_secs)))) =
      [[(MemberStatus.Working, 0, 0)]] ∧
    envC9.nowSec - 0 = 100 := by decide

theorem working_secs_monotone_witness :
    (creditTransition 100 MemberStatus.Idle
      (mkMember "claude" "%9" .Working 0 0)).working_secs = 0 + (100 - 0) :=
  (working_secs_monotone envC9 cfg0 dyn0 [] stC9).2.2 100 MemberStatus.Idle
    (mkMember "claude" "%9" .Working 0 0) rfl (by decide)

end Apiary
